import Mathlib

/-!
# Verification of the Prebid Server cache Lambda (`cache_access.py`)

A shallow embedding of the request-handling logic of
`source/infrastructure/prebid_server/cache_lambda/cache_access.py`:
the router (`handler`), the three request handlers
(`handle_health_check`, `handle_get_request`, `handle_post_request`)
and the POST validation helpers (`validate_post_body`,
`validate_post_puts`, `validate_post_ttlseconds`).

Modelling conventions:

* JSON values are modelled by the inductive `JVal`.  JSON numbers are
  modelled as integers (none of the verified properties involve
  fractional literals).  Python dictionaries obtained from `json.loads`
  are modelled as field lists with *last-wins* lookup, matching how
  repeated keys behave when a JSON text is loaded into a `dict`.
* `json.dumps` / `json.loads` are modelled by the executable serializer
  `jdumps` and parser `jloads` over `List Char` (no optional whitespace,
  and only the string escapes `\"` and `\\` that `jdumps` itself emits;
  the round-trip theorem `jloads_jdumps` is proved below).
* Python exceptions are explicit: fallible steps return
  `Except PyExc _`.  The redis client is an oracle (`Backend`) saying,
  per call, whether the backend raises and what it returns; the Lambda
  handlers record every backend call and every successfully stored
  entry so that "no backend call is made" and "no partial storage"
  are statable.
* `redis` is configured with `decode_responses=True`, so `get` returns
  decoded text; the dead `isinstance(value, bytes)` branch of
  `handle_get_request` is not modelled.
* CloudWatch metric emission is modelled as appending to a metric log
  (emission itself is fire-and-forget and never raises in the model).
-/

/-- Python/JSON strings are modelled as character lists. -/
abbrev Str := List Char

/-- A JSON value as produced by `json.loads` (numbers restricted to
integers; objects are field lists in textual order). -/
inductive JVal where
  | jnull
  | jbool (b : Bool)
  | jnum (n : Int)
  | jstr (s : Str)
  | jarr (items : List JVal)
  | jobj (fields : List (Str × JVal))

/-- Lookup of a key in a loaded JSON object: later duplicate keys win,
as when `json.loads` builds a Python `dict`. -/
def lookupField : List (Str × JVal) → Str → Option JVal
  | [], _ => none
  | (k, v) :: rest, key =>
    match lookupField rest key with
    | some v2 => some v2
    | none => if k = key then some v else none

/-- Python `dict.get(key, default)` on a loaded JSON object. -/
def lookupD (fields : List (Str × JVal)) (key : Str) (dflt : JVal) : JVal :=
  match lookupField fields key with
  | some v => v
  | none => dflt

/-- Python `key in dict` on a loaded JSON object. -/
def hasField (fields : List (Str × JVal)) (key : Str) : Bool :=
  (lookupField fields key).isSome

/-! ## Decimal printing of integers (for `json.dumps` and f-strings) -/

/-- Base-10 digits of a natural number, least significant first
(empty for 0). -/
def natDigitsRev (n : Nat) : List Nat :=
  if h : n = 0 then [] else (n % 10) :: natDigitsRev (n / 10)
decreasing_by exact Nat.div_lt_self (Nat.pos_of_ne_zero h) (by omega)

/-- A single decimal digit as a character. -/
def digitChar10 (d : Nat) : Char := Char.ofNat (48 + d)

/-- Base-10 digits of a natural number, most significant first
(`[0]` for 0). -/
def msdDigits (n : Nat) : List Nat :=
  if n = 0 then [0] else (natDigitsRev n).reverse

/-- Decimal representation of a natural number. -/
def natToChars (n : Nat) : Str := (msdDigits n).map digitChar10

/-- Decimal representation of an integer, as Python `str` prints it. -/
def intToChars : Int → Str
  | Int.ofNat n => natToChars n
  | Int.negSucc m => '-' :: natToChars (m + 1)

/-! ## `json.dumps` -/

/-- Serialization of one string character (escaping `"` and `\`). -/
def escChar (c : Char) : Str :=
  if c = '"' ∨ c = '\\' then ['\\', c] else [c]

/-- Serialization of the body of a JSON string. -/
def escapeStr : Str → Str
  | [] => []
  | c :: s => escChar c ++ escapeStr s

mutual

/-- `json.dumps` (compact form, no whitespace). -/
def jdumps : JVal → Str
  | JVal.jnull => ['n', 'u', 'l', 'l']
  | JVal.jbool true => ['t', 'r', 'u', 'e']
  | JVal.jbool false => ['f', 'a', 'l', 's', 'e']
  | JVal.jnum n => intToChars n
  | JVal.jstr s => '"' :: (escapeStr s ++ ['"'])
  | JVal.jarr items => '[' :: (jdumpsArr items ++ [']'])
  | JVal.jobj fields => '\x7b' :: (jdumpsObj fields ++ ['\x7d'])

/-- Comma-separated serialization of array elements. -/
def jdumpsArr : List JVal → Str
  | [] => []
  | v :: rest => jdumps v ++ jdumpsArrTail rest

/-- Serialization of array elements after the first. -/
def jdumpsArrTail : List JVal → Str
  | [] => []
  | v :: rest => ',' :: (jdumps v ++ jdumpsArrTail rest)

/-- Comma-separated serialization of object members. -/
def jdumpsObj : List (Str × JVal) → Str
  | [] => []
  | kv :: rest => jdumpsKV kv ++ jdumpsObjTail rest

/-- Serialization of object members after the first. -/
def jdumpsObjTail : List (Str × JVal) → Str
  | [] => []
  | kv :: rest => ',' :: (jdumpsKV kv ++ jdumpsObjTail rest)

/-- Serialization of one `"key":value` member. -/
def jdumpsKV : Str × JVal → Str
  | (k, v) => '"' :: (escapeStr k ++ '"' :: ':' :: jdumps v)

end

/-! ## `json.loads` -/

/-- Is `c` an ASCII decimal digit? -/
def isDig (c : Char) : Bool := 48 ≤ c.toNat ∧ c.toNat ≤ 57

/-- Numeric value of a digit character. -/
def digVal (c : Char) : Nat := c.toNat - 48

/-- Strip an expected literal sequence from the input. -/
def stripPre : Str → Str → Option Str
  | [], cs => some cs
  | _ :: _, [] => none
  | e :: es, c :: cs => if c = e then stripPre es cs else none

/-- Parse the body of a JSON string up to the closing quote
(the escapes `jdumps` emits: a backslash makes the next character
literal). -/
def parseStrBody : Str → Option (Str × Str)
  | [] => none
  | c :: rest =>
    if c = '"' then some ([], rest)
    else if c = '\\' then
      match rest with
      | [] => none
      | c2 :: rest2 =>
        match parseStrBody rest2 with
        | none => none
        | some (s, r) => some (c2 :: s, r)
    else
      match parseStrBody rest with
      | none => none
      | some (s, r) => some (c :: s, r)

/-- Consume a run of digits, accumulating their value. -/
def parseDigitsAcc (acc : Nat) : Str → Nat × Str
  | [] => (acc, [])
  | c :: rest =>
    if isDig c then parseDigitsAcc (acc * 10 + digVal c) rest
    else (acc, c :: rest)

mutual

/-- Fuel-indexed JSON parser for the fragment `jdumps` produces. -/
def jparse : Nat → Str → Option (JVal × Str)
  | 0, _ => none
  | _ + 1, [] => none
  | fuel + 1, c :: rest =>
    if c = 'n' then
      match stripPre ['u', 'l', 'l'] rest with
      | none => none
      | some r => some (JVal.jnull, r)
    else if c = 't' then
      match stripPre ['r', 'u', 'e'] rest with
      | none => none
      | some r => some (JVal.jbool true, r)
    else if c = 'f' then
      match stripPre ['a', 'l', 's', 'e'] rest with
      | none => none
      | some r => some (JVal.jbool false, r)
    else if c = '"' then
      match parseStrBody rest with
      | none => none
      | some (s, r) => some (JVal.jstr s, r)
    else if c = '-' then
      match rest with
      | [] => none
      | d :: rest2 =>
        if isDig d then
          let p := parseDigitsAcc (digVal d) rest2
          some (JVal.jnum (-(p.1 : Int)), p.2)
        else none
    else if isDig c then
      let p := parseDigitsAcc (digVal c) rest
      some (JVal.jnum (p.1 : Int), p.2)
    else if c = '[' then
      parseArrRest fuel rest
    else if c = '\x7b' then
      parseObjRest fuel rest
    else none

/-- Parse the contents of an array after `[`. -/
def parseArrRest : Nat → Str → Option (JVal × Str)
  | 0, _ => none
  | _ + 1, [] => none
  | fuel + 1, c :: rest =>
    if c = ']' then some (JVal.jarr [], rest)
    else
      match jparse fuel (c :: rest) with
      | none => none
      | some (v, r) =>
        match parseArrTail fuel r with
        | none => none
        | some (vs, r2) => some (JVal.jarr (v :: vs), r2)

/-- Parse `,`-separated further array elements and the closing `]`. -/
def parseArrTail : Nat → Str → Option (List JVal × Str)
  | 0, _ => none
  | _ + 1, [] => none
  | fuel + 1, c :: rest =>
    if c = ']' then some ([], rest)
    else if c = ',' then
      match jparse fuel rest with
      | none => none
      | some (v, r) =>
        match parseArrTail fuel r with
        | none => none
        | some (vs, r2) => some (v :: vs, r2)
    else none

/-- Parse the contents of an object after `{`. -/
def parseObjRest : Nat → Str → Option (JVal × Str)
  | 0, _ => none
  | _ + 1, [] => none
  | fuel + 1, c :: rest =>
    if c = '\x7d' then some (JVal.jobj [], rest)
    else
      match parseMember fuel (c :: rest) with
      | none => none
      | some (kv, r) =>
        match parseObjTail fuel r with
        | none => none
        | some (kvs, r2) => some (JVal.jobj (kv :: kvs), r2)

/-- Parse `,`-separated further object members and the closing `}`. -/
def parseObjTail : Nat → Str → Option (List (Str × JVal) × Str)
  | 0, _ => none
  | _ + 1, [] => none
  | fuel + 1, c :: rest =>
    if c = '\x7d' then some ([], rest)
    else if c = ',' then
      match parseMember fuel rest with
      | none => none
      | some (kv, r) =>
        match parseObjTail fuel r with
        | none => none
        | some (kvs, r2) => some (kv :: kvs, r2)
    else none

/-- Parse one `"key":value` object member. -/
def parseMember : Nat → Str → Option ((Str × JVal) × Str)
  | 0, _ => none
  | _ + 1, [] => none
  | fuel + 1, c :: rest =>
    if c = '"' then
      match parseStrBody rest with
      | none => none
      | some (k, r) =>
        match r with
        | [] => none
        | c2 :: r2 =>
          if c2 = ':' then
            match jparse fuel r2 with
            | none => none
            | some (v, r3) => some ((k, v), r3)
          else none
    else none

end

/-- `json.loads`: parse a complete JSON text (fuel amply bounded by
twice the input length, which `jloads_jdumps` shows is sufficient for
every serializer output). -/
def jloads (cs : Str) : Option JVal :=
  match jparse (2 * cs.length + 2) cs with
  | some (v, []) => some v
  | _ => none

/-! ## Round-trip: `jloads` inverts `jdumps` -/

/-- The continuation after a serialized number may not begin with a
digit (true of every continuation the serializer produces). -/
def headNotDig : Str → Bool
  | [] => true
  | c :: _ => !isDig c

theorem natDigitsRev_lt10 : ∀ n, ∀ d ∈ natDigitsRev n, d < 10 := by
  intro n
  induction n using Nat.strong_induction_on with
  | _ n ih =>
    rw [natDigitsRev]
    split
    · simp
    · intro d hd
      simp only [List.mem_cons] at hd
      rcases hd with h | h
      · omega
      · exact ih (n / 10) (by omega) d h

theorem foldl_natDigitsRev : ∀ n acc,
    List.foldl (fun a d => a * 10 + d) acc (natDigitsRev n).reverse
      = acc * 10 ^ (natDigitsRev n).length + n := by
  intro n
  induction n using Nat.strong_induction_on with
  | _ n ih =>
    intro acc
    rw [natDigitsRev]
    split
    · simp only [List.reverse_nil, List.foldl_nil, List.length_nil, pow_zero,
        Nat.mul_one]
      omega
    · simp only [List.reverse_cons, List.foldl_append, List.foldl_cons,
        List.foldl_nil, List.length_cons]
      rw [ih (n / 10) (by omega)]
      rw [pow_succ, ← Nat.mul_assoc]
      omega

theorem msdDigits_lt10 : ∀ n, ∀ d ∈ msdDigits n, d < 10 := by
  intro n d hd
  unfold msdDigits at hd
  split at hd
  · simp at hd; omega
  · exact natDigitsRev_lt10 n d (List.mem_reverse.mp hd)

theorem foldl_msdDigits (n : Nat) :
    List.foldl (fun a d => a * 10 + d) 0 (msdDigits n) = n := by
  unfold msdDigits
  split
  · simp; omega
  · rw [foldl_natDigitsRev]; simp

theorem msdDigits_cons (n : Nat) : ∃ d ds, msdDigits n = d :: ds := by
  unfold msdDigits
  split
  · exact ⟨0, [], rfl⟩
  · cases hrev : (natDigitsRev n).reverse with
    | nil =>
      exfalso
      have : natDigitsRev n = [] := by
        have := congrArg List.reverse hrev
        simpa using this
      rw [natDigitsRev] at this
      split at this
      · omega
      · simp at this
    | cons a l => exact ⟨a, l, rfl⟩

theorem isDig_digitChar10 {d : Nat} (h : d < 10) : isDig (digitChar10 d) = true := by
  interval_cases d <;> decide

theorem digVal_digitChar10 {d : Nat} (h : d < 10) : digVal (digitChar10 d) = d := by
  interval_cases d <;> decide

theorem digitChar10_branches {d : Nat} (h : d < 10) :
    digitChar10 d ≠ 'n' ∧ digitChar10 d ≠ 't' ∧ digitChar10 d ≠ 'f' ∧
    digitChar10 d ≠ '"' ∧ digitChar10 d ≠ '-' := by
  interval_cases d <;> decide

theorem parseDigitsAcc_digits : ∀ (ds : List Nat) (acc : Nat) (rest : Str),
    (∀ d ∈ ds, d < 10) → headNotDig rest = true →
    parseDigitsAcc acc (ds.map digitChar10 ++ rest)
      = (List.foldl (fun a d => a * 10 + d) acc ds, rest) := by
  intro ds
  induction ds with
  | nil =>
    intro acc rest _ h
    cases rest with
    | nil => simp [parseDigitsAcc]
    | cons c cs =>
      simp only [headNotDig, Bool.not_eq_true'] at h
      simp [parseDigitsAcc, h]
  | cons d ds ih =>
    intro acc rest hlt h
    have hd : d < 10 := hlt d (List.mem_cons_self d ds)
    simp only [List.map_cons, List.cons_append, parseDigitsAcc,
      isDig_digitChar10 hd, if_true, digVal_digitChar10 hd, List.foldl_cons]
    exact ih _ rest (fun x hx => hlt x (List.mem_cons_of_mem d hx)) h

theorem natToChars_parse (n : Nat) (rest : Str) (h : headNotDig rest = true) :
    ∃ c cs, natToChars n = c :: cs ∧ isDig c = true ∧
      c ≠ 'n' ∧ c ≠ 't' ∧ c ≠ 'f' ∧ c ≠ '"' ∧ c ≠ '-' ∧
      parseDigitsAcc (digVal c) (cs ++ rest) = (n, rest) := by
  obtain ⟨d, ds, hds⟩ := msdDigits_cons n
  have hlt : ∀ x ∈ d :: ds, x < 10 := by rw [← hds]; exact msdDigits_lt10 n
  have hd : d < 10 := hlt d (List.mem_cons_self d ds)
  have hb := digitChar10_branches hd
  refine ⟨digitChar10 d, ds.map digitChar10, ?_, isDig_digitChar10 hd,
    hb.1, hb.2.1, hb.2.2.1, hb.2.2.2.1, hb.2.2.2.2, ?_⟩
  · unfold natToChars; rw [hds]; rfl
  · rw [digVal_digitChar10 hd,
      parseDigitsAcc_digits ds d rest (fun x hx => hlt x (List.mem_cons_of_mem d hx)) h]
    have h2 := foldl_msdDigits n
    rw [hds] at h2
    simp only [List.foldl_cons, Nat.zero_mul, Nat.zero_add] at h2
    simp [h2]

theorem jparse_natToChars (n : Nat) (f : Nat) (rest : Str) (h : headNotDig rest = true) :
    jparse (f + 1) (natToChars n ++ rest) = some (JVal.jnum (n : Int), rest) := by
  obtain ⟨c, cs, hnc, hdig, h1, h2, h3, h4, h5, hparse⟩ := natToChars_parse n rest h
  rw [hnc]
  simp only [List.cons_append, jparse, h1, h2, h3, h4, h5, hdig,
    if_true, if_false, ite_true, ite_false]
  rw [hparse]

theorem jparse_intToChars (i : Int) (f : Nat) (rest : Str) (h : headNotDig rest = true) :
    jparse (f + 1) (intToChars i ++ rest) = some (JVal.jnum i, rest) := by
  cases i with
  | ofNat n =>
    simp only [intToChars]
    exact jparse_natToChars n f rest h
  | negSucc m =>
    simp only [intToChars, List.cons_append]
    obtain ⟨c, cs, hnc, hdig, h1, h2, h3, h4, h5, hparse⟩ := natToChars_parse (m + 1) rest h
    rw [hnc]
    simp only [List.cons_append, jparse]
    simp [hdig]
    rw [hparse]
    have hcast : ((m + 1 : Nat) : Int) = (m : Int) + 1 := by push_cast; ring
    rw [hcast, ← Int.negSucc_eq]
    exact ⟨rfl, rfl⟩

theorem parseStrBody_escape : ∀ (s : Str) (rest : Str),
    parseStrBody (escapeStr s ++ '"' :: rest) = some (s, rest) := by
  intro s
  induction s with
  | nil =>
    intro rest
    simp only [escapeStr, List.nil_append]
    rw [parseStrBody.eq_def]
    simp
  | cons c s ih =>
    intro rest
    by_cases hc : c = '"' ∨ c = '\\'
    · simp only [escapeStr, escChar, if_pos hc, List.cons_append, List.append_assoc,
        List.nil_append]
      rw [parseStrBody.eq_def]
      simp [ih rest]
    · push_neg at hc
      simp only [escapeStr, escChar, if_neg (by tauto : ¬(c = '"' ∨ c = '\\')),
        List.cons_append, List.nil_append]
      rw [parseStrBody.eq_def]
      simp [hc.1, hc.2, ih rest]

mutual

/-- Fuel sufficient for `jparse` to consume this value's serialization. -/
def fuelOf : JVal → Nat
  | JVal.jarr items => 2 + fuelList items
  | JVal.jobj fields => 2 + fuelFields fields
  | _ => 1

/-- Fuel sufficient for the elements of an array. -/
def fuelList : List JVal → Nat
  | [] => 0
  | v :: vs => 1 + fuelOf v + fuelList vs

/-- Fuel sufficient for the members of an object. -/
def fuelFields : List (Str × JVal) → Nat
  | [] => 0
  | kv :: kvs => 1 + fuelOf kv.2 + fuelFields kvs

end

theorem headNotDig_cons (c : Char) (rest : Str) : headNotDig (c :: rest) = !isDig c := rfl

theorem headNotDig_rbrack (rest : Str) : headNotDig (']' :: rest) = true := by
  rw [headNotDig_cons]; decide

theorem headNotDig_rbrace (rest : Str) : headNotDig ('\x7d' :: rest) = true := by
  rw [headNotDig_cons]; decide

theorem headNotDig_comma (rest : Str) : headNotDig (',' :: rest) = true := by
  rw [headNotDig_cons]; decide

theorem headNotDig_arrTail (vs : List JVal) (rest : Str) :
    headNotDig (jdumpsArrTail vs ++ ']' :: rest) = true := by
  cases vs with
  | nil => simp only [jdumpsArrTail, List.nil_append]; exact headNotDig_rbrack rest
  | cons v vs => simp only [jdumpsArrTail, List.cons_append]; exact headNotDig_comma _

theorem headNotDig_objTail (kvs : List (Str × JVal)) (rest : Str) :
    headNotDig (jdumpsObjTail kvs ++ '\x7d' :: rest) = true := by
  cases kvs with
  | nil => simp only [jdumpsObjTail, List.nil_append]; exact headNotDig_rbrace rest
  | cons kv kvs => simp only [jdumpsObjTail, List.cons_append]; exact headNotDig_comma _

theorem digitChar10_not_closers {d : Nat} (h : d < 10) :
    digitChar10 d ≠ ']' ∧ digitChar10 d ≠ '\x7d' := by
  interval_cases d <;> decide

theorem jdumps_head (v : JVal) : ∃ c cs, jdumps v = c :: cs ∧ c ≠ ']' ∧ c ≠ '\x7d' := by
  cases v with
  | jnull => exact ⟨'n', ['u', 'l', 'l'], by simp [jdumps], by decide, by decide⟩
  | jbool b =>
    cases b with
    | false => exact ⟨'f', ['a', 'l', 's', 'e'], by simp [jdumps], by decide, by decide⟩
    | true => exact ⟨'t', ['r', 'u', 'e'], by simp [jdumps], by decide, by decide⟩
  | jnum n =>
    cases n with
    | ofNat k =>
      obtain ⟨d, ds, hds⟩ := msdDigits_cons k
      have hd : d < 10 := msdDigits_lt10 k d (by rw [hds]; exact List.mem_cons_self d ds)
      have hc := digitChar10_not_closers hd
      exact ⟨digitChar10 d, ds.map digitChar10,
        by simp [jdumps, intToChars, natToChars, hds], hc.1, hc.2⟩
    | negSucc m =>
      exact ⟨'-', natToChars (m + 1), by simp [jdumps, intToChars], by decide, by decide⟩
  | jstr s => exact ⟨'"', escapeStr s ++ ['"'], by simp [jdumps], by decide, by decide⟩
  | jarr items => exact ⟨'[', jdumpsArr items ++ [']'], by simp [jdumps], by decide, by decide⟩
  | jobj fields =>
    exact ⟨'\x7b', jdumpsObj fields ++ ['\x7d'], by simp [jdumps], by decide, by decide⟩

/-- The parser recovers `v` from `jdumps v` (given enough fuel and a
continuation that does not begin with a digit). -/
def ParseOK (v : JVal) : Prop :=
  ∀ f rest, fuelOf v ≤ f → headNotDig rest = true →
    jparse f (jdumps v ++ rest) = some (v, rest)

theorem parseArrTail_dumps (vs : List JVal) (ih : ∀ w ∈ vs, ParseOK w) :
    ∀ f rest, 1 + fuelList vs ≤ f →
      parseArrTail f (jdumpsArrTail vs ++ ']' :: rest) = some (vs, rest) := by
  induction vs with
  | nil =>
    intro f rest hf
    obtain ⟨f', rfl⟩ : ∃ f', f = f' + 1 := ⟨f - 1, by omega⟩
    simp [jdumpsArrTail, parseArrTail]
  | cons v vs ihvs =>
    intro f rest hf
    obtain ⟨f', rfl⟩ : ∃ f', f = f' + 1 := ⟨f - 1, by omega⟩
    have hfl : fuelList (v :: vs) = 1 + fuelOf v + fuelList vs := by simp [fuelList]
    have h1 : jparse f' (jdumps v ++ (jdumpsArrTail vs ++ ']' :: rest))
        = some (v, jdumpsArrTail vs ++ ']' :: rest) :=
      ih v (List.mem_cons_self v vs) f' _ (by omega) (headNotDig_arrTail vs rest)
    have h2 : parseArrTail f' (jdumpsArrTail vs ++ ']' :: rest) = some (vs, rest) :=
      ihvs (fun w hw => ih w (List.mem_cons_of_mem v hw)) f' rest (by omega)
    simp only [jdumpsArrTail, List.cons_append, List.append_assoc]
    simp [parseArrTail, h1, h2]

theorem parseArrRest_dumps (items : List JVal) (ih : ∀ w ∈ items, ParseOK w) :
    ∀ f rest, 1 + fuelList items ≤ f →
      parseArrRest f (jdumpsArr items ++ ']' :: rest) = some (JVal.jarr items, rest) := by
  cases items with
  | nil =>
    intro f rest hf
    obtain ⟨f', rfl⟩ : ∃ f', f = f' + 1 := ⟨f - 1, by omega⟩
    simp [jdumpsArr, parseArrRest]
  | cons v vs =>
    intro f rest hf
    obtain ⟨f', rfl⟩ : ∃ f', f = f' + 1 := ⟨f - 1, by omega⟩
    have hfl : fuelList (v :: vs) = 1 + fuelOf v + fuelList vs := by simp [fuelList]
    obtain ⟨c, cs, hc, hc1, hc2⟩ := jdumps_head v
    have h1 : jparse f' (jdumps v ++ (jdumpsArrTail vs ++ ']' :: rest))
        = some (v, jdumpsArrTail vs ++ ']' :: rest) :=
      ih v (List.mem_cons_self v vs) f' _ (by omega) (headNotDig_arrTail vs rest)
    have h2 : parseArrTail f' (jdumpsArrTail vs ++ ']' :: rest) = some (vs, rest) :=
      parseArrTail_dumps vs (fun w hw => ih w (List.mem_cons_of_mem v hw)) f' rest (by omega)
    rw [hc] at h1
    simp only [List.cons_append] at h1
    simp only [jdumpsArr, List.append_assoc, hc, List.cons_append]
    simp [parseArrRest, hc1, h1, h2]

theorem parseMember_dumps (k : Str) (v : JVal) (ihv : ParseOK v) :
    ∀ f rest, 1 + fuelOf v ≤ f → headNotDig rest = true →
      parseMember f (jdumpsKV (k, v) ++ rest) = some ((k, v), rest) := by
  intro f rest hf h
  obtain ⟨f', rfl⟩ : ∃ f', f = f' + 1 := ⟨f - 1, by omega⟩
  have h1 : parseStrBody (escapeStr k ++ '"' :: ':' :: (jdumps v ++ rest))
      = some (k, ':' :: (jdumps v ++ rest)) := parseStrBody_escape k _
  have h2 : jparse f' (jdumps v ++ rest) = some (v, rest) := ihv f' rest (by omega) h
  simp only [jdumpsKV, List.cons_append, List.append_assoc]
  simp [parseMember, h1, h2]

theorem parseObjTail_dumps (kvs : List (Str × JVal)) (ih : ∀ kv ∈ kvs, ParseOK kv.2) :
    ∀ f rest, 1 + fuelFields kvs ≤ f →
      parseObjTail f (jdumpsObjTail kvs ++ '\x7d' :: rest) = some (kvs, rest) := by
  induction kvs with
  | nil =>
    intro f rest hf
    obtain ⟨f', rfl⟩ : ∃ f', f = f' + 1 := ⟨f - 1, by omega⟩
    simp [jdumpsObjTail, parseObjTail]
  | cons kv kvs ihkvs =>
    intro f rest hf
    obtain ⟨k, v⟩ := kv
    obtain ⟨f', rfl⟩ : ∃ f', f = f' + 1 := ⟨f - 1, by omega⟩
    have hfl : fuelFields ((k, v) :: kvs) = 1 + fuelOf v + fuelFields kvs := by simp [fuelFields]
    have h1 : parseMember f' (jdumpsKV (k, v) ++ (jdumpsObjTail kvs ++ '\x7d' :: rest))
        = some ((k, v), jdumpsObjTail kvs ++ '\x7d' :: rest) :=
      parseMember_dumps k v (ih (k, v) (List.mem_cons_self (k, v) kvs)) f' _ (by omega)
        (headNotDig_objTail kvs rest)
    have h2 : parseObjTail f' (jdumpsObjTail kvs ++ '\x7d' :: rest) = some (kvs, rest) :=
      ihkvs (fun kv hkv => ih kv (List.mem_cons_of_mem (k, v) hkv)) f' rest (by omega)
    simp only [jdumpsObjTail, List.cons_append, List.append_assoc]
    simp [parseObjTail, h1, h2]

theorem parseObjRest_dumps (fields : List (Str × JVal)) (ih : ∀ kv ∈ fields, ParseOK kv.2) :
    ∀ f rest, 1 + fuelFields fields ≤ f →
      parseObjRest f (jdumpsObj fields ++ '\x7d' :: rest) = some (JVal.jobj fields, rest) := by
  cases fields with
  | nil =>
    intro f rest hf
    obtain ⟨f', rfl⟩ : ∃ f', f = f' + 1 := ⟨f - 1, by omega⟩
    simp [jdumpsObj, parseObjRest]
  | cons kv kvs =>
    intro f rest hf
    obtain ⟨k, v⟩ := kv
    obtain ⟨f', rfl⟩ : ∃ f', f = f' + 1 := ⟨f - 1, by omega⟩
    have hfl : fuelFields ((k, v) :: kvs) = 1 + fuelOf v + fuelFields kvs := by simp [fuelFields]
    have h1 : parseMember f' (jdumpsKV (k, v) ++ (jdumpsObjTail kvs ++ '\x7d' :: rest))
        = some ((k, v), jdumpsObjTail kvs ++ '\x7d' :: rest) :=
      parseMember_dumps k v (ih (k, v) (List.mem_cons_self (k, v) kvs)) f' _ (by omega)
        (headNotDig_objTail kvs rest)
    have h2 : parseObjTail f' (jdumpsObjTail kvs ++ '\x7d' :: rest) = some (kvs, rest) :=
      parseObjTail_dumps kvs (fun kv hkv => ih kv (List.mem_cons_of_mem (k, v) hkv)) f' rest
        (by omega)
    simp only [jdumpsKV, List.cons_append, List.append_assoc] at h1
    simp only [jdumpsObj, List.append_assoc]
    -- the first input character is the opening quote of the first key
    simp only [jdumpsKV, List.cons_append, List.append_assoc]
    simp [parseObjRest, h1, h2]

theorem isDig_lbrack : isDig '[' = false := by decide

theorem isDig_lbrace : isDig '\x7b' = false := by decide

theorem jparse_jdumps (v : JVal) : ParseOK v := by
  cases v with
  | jnull =>
    intro f rest hf h
    have h1 : fuelOf JVal.jnull = 1 := by simp [fuelOf]
    obtain ⟨f', rfl⟩ : ∃ f', f = f' + 1 := ⟨f - 1, by omega⟩
    simp [jdumps, jparse, stripPre]
  | jbool b =>
    intro f rest hf h
    have h1 : fuelOf (JVal.jbool b) = 1 := by simp [fuelOf]
    obtain ⟨f', rfl⟩ : ∃ f', f = f' + 1 := ⟨f - 1, by omega⟩
    cases b <;> simp [jdumps, jparse, stripPre]
  | jnum n =>
    intro f rest hf h
    have h1 : fuelOf (JVal.jnum n) = 1 := by simp [fuelOf]
    obtain ⟨f', rfl⟩ : ∃ f', f = f' + 1 := ⟨f - 1, by omega⟩
    simp only [jdumps]
    exact jparse_intToChars n f' rest h
  | jstr s =>
    intro f rest hf h
    have h1 : fuelOf (JVal.jstr s) = 1 := by simp [fuelOf]
    obtain ⟨f', rfl⟩ : ∃ f', f = f' + 1 := ⟨f - 1, by omega⟩
    have h2 : parseStrBody (escapeStr s ++ '"' :: rest) = some (s, rest) :=
      parseStrBody_escape s rest
    simp only [jdumps, List.cons_append, List.append_assoc, List.singleton_append]
    simp [jparse, h2]
  | jarr items =>
    intro f rest hf h
    have h1 : fuelOf (JVal.jarr items) = 2 + fuelList items := by simp [fuelOf]
    obtain ⟨f', rfl⟩ : ∃ f', f = f' + 1 := ⟨f - 1, by omega⟩
    have h2 := parseArrRest_dumps items (fun w hw => jparse_jdumps w) f' rest (by omega)
    simp only [jdumps, List.cons_append, List.append_assoc, List.singleton_append]
    simp [jparse, h2, isDig_lbrack]
  | jobj fields =>
    intro f rest hf h
    have h1 : fuelOf (JVal.jobj fields) = 2 + fuelFields fields := by simp [fuelOf]
    obtain ⟨f', rfl⟩ : ∃ f', f = f' + 1 := ⟨f - 1, by omega⟩
    have h2 := parseObjRest_dumps fields (fun kv hkv => jparse_jdumps kv.2) f' rest (by omega)
    simp only [jdumps, List.cons_append, List.append_assoc, List.singleton_append]
    simp [jparse, h2, isDig_lbrace]
termination_by sizeOf v
decreasing_by
  · have := List.sizeOf_lt_of_mem hw
    simp only [JVal.jarr.sizeOf_spec]
    omega
  · have h3 := List.sizeOf_lt_of_mem hkv
    obtain ⟨k0, v0⟩ := kv
    simp only [JVal.jobj.sizeOf_spec, Prod.mk.sizeOf_spec] at h3 ⊢
    omega

theorem arrTailBound (vs : List JVal) (ih : ∀ w ∈ vs, fuelOf w ≤ 2 * (jdumps w).length) :
    fuelList vs ≤ 2 * (jdumpsArrTail vs).length := by
  induction vs with
  | nil => simp [fuelList, jdumpsArrTail]
  | cons v vs ihvs =>
    have h1 := ih v (List.mem_cons_self v vs)
    have h2 := ihvs (fun w hw => ih w (List.mem_cons_of_mem v hw))
    simp only [fuelList, jdumpsArrTail, List.length_cons, List.length_append]
    omega

theorem arrBound (vs : List JVal) (ih : ∀ w ∈ vs, fuelOf w ≤ 2 * (jdumps w).length) :
    fuelList vs ≤ 2 * (jdumpsArr vs).length + 2 := by
  cases vs with
  | nil => simp [fuelList, jdumpsArr]
  | cons v vs =>
    have h1 := ih v (List.mem_cons_self v vs)
    have h2 := arrTailBound vs (fun w hw => ih w (List.mem_cons_of_mem v hw))
    simp only [fuelList, jdumpsArr, List.length_append]
    omega

theorem objTailBound (kvs : List (Str × JVal))
    (ih : ∀ kv ∈ kvs, fuelOf kv.2 ≤ 2 * (jdumps kv.2).length) :
    fuelFields kvs ≤ 2 * (jdumpsObjTail kvs).length := by
  induction kvs with
  | nil => simp [fuelFields, jdumpsObjTail]
  | cons kv kvs ihkvs =>
    have h1 := ih kv (List.mem_cons_self kv kvs)
    have h2 := ihkvs (fun kv2 hkv2 => ih kv2 (List.mem_cons_of_mem kv hkv2))
    obtain ⟨k, v⟩ := kv
    simp only [fuelFields, jdumpsObjTail, jdumpsKV, List.length_cons,
      List.length_append] at h1 h2 ⊢
    omega

theorem objBound (kvs : List (Str × JVal))
    (ih : ∀ kv ∈ kvs, fuelOf kv.2 ≤ 2 * (jdumps kv.2).length) :
    fuelFields kvs ≤ 2 * (jdumpsObj kvs).length + 2 := by
  cases kvs with
  | nil => simp [fuelFields, jdumpsObj]
  | cons kv kvs =>
    have h1 := ih kv (List.mem_cons_self kv kvs)
    have h2 := objTailBound kvs (fun kv2 hkv2 => ih kv2 (List.mem_cons_of_mem kv hkv2))
    obtain ⟨k, v⟩ := kv
    simp only [fuelFields, jdumpsObj, jdumpsKV, List.length_cons,
      List.length_append] at h1 h2 ⊢
    omega

theorem fuelLen (v : JVal) : fuelOf v ≤ 2 * (jdumps v).length := by
  cases v with
  | jnull => simp [fuelOf, jdumps]
  | jbool b => cases b <;> simp [fuelOf, jdumps]
  | jnum n =>
    obtain ⟨c, cs, hc, _, _⟩ := jdumps_head (JVal.jnum n)
    have h1 : fuelOf (JVal.jnum n) = 1 := by simp [fuelOf]
    have h2 : 1 ≤ (jdumps (JVal.jnum n)).length := by rw [hc]; simp
    omega
  | jstr s =>
    have h1 : fuelOf (JVal.jstr s) = 1 := by simp [fuelOf]
    have h2 : 1 ≤ (jdumps (JVal.jstr s)).length := by simp [jdumps]
    omega
  | jarr items =>
    have hA := arrBound items (fun w hw => fuelLen w)
    have hf : fuelOf (JVal.jarr items) = 2 + fuelList items := by simp [fuelOf]
    have hlen : (jdumps (JVal.jarr items)).length = (jdumpsArr items).length + 2 := by
      simp [jdumps]
    omega
  | jobj fields =>
    have hA := objBound fields (fun kv hkv => fuelLen kv.2)
    have hf : fuelOf (JVal.jobj fields) = 2 + fuelFields fields := by simp [fuelOf]
    have hlen : (jdumps (JVal.jobj fields)).length = (jdumpsObj fields).length + 2 := by
      simp [jdumps]
    omega
termination_by sizeOf v
decreasing_by
  · have := List.sizeOf_lt_of_mem hw
    simp only [JVal.jarr.sizeOf_spec]
    omega
  · have h3 := List.sizeOf_lt_of_mem hkv
    obtain ⟨k0, v0⟩ := kv
    simp only [JVal.jobj.sizeOf_spec, Prod.mk.sizeOf_spec] at h3 ⊢
    omega

/-- Round-trip: the model of `json.loads` inverts the model of
`json.dumps` on every JSON value. -/
theorem jloads_jdumps (v : JVal) : jloads (jdumps v) = some v := by
  unfold jloads
  have h1 := fuelLen v
  have h2 := jparse_jdumps v (2 * (jdumps v).length + 2) [] (by omega) rfl
  rw [List.append_nil] at h2
  rw [h2]

/-! ## Python-level primitives used by the handlers -/

/-- Python exception classes distinguished by the handlers' `try`
blocks and the router's catch-all. -/
inductive PyExc where
  | attributeError
  | typeError
  | valueError
  | keyError
  | jsonDecodeError
  | redisError
deriving DecidableEq

/-- ASCII whitespace, as stripped by Python `int(str)`. -/
def isPySpace (c : Char) : Bool :=
  c = ' ' ∨ c = '\t' ∨ c = '\n' ∨ c = '\r' ∨ c = '\x0b' ∨ c = '\x0c'

/-- Strip leading and trailing whitespace. -/
def stripWs (s : Str) : Str :=
  ((s.dropWhile isPySpace).reverse.dropWhile isPySpace).reverse

/-- The value of the tail of a Python numeral after its first digit:
further digits, with single underscores allowed between digits
(`1_0` is 10; leading, trailing or doubled underscores fail). -/
def digitsTail (acc : Nat) : Str → Option Nat
  | [] => some acc
  | c :: rest =>
    if isDig c then digitsTail (acc * 10 + digVal c) rest
    else if c = '_' then
      match rest with
      | [] => none
      | c2 :: rest2 =>
        if isDig c2 then digitsTail (acc * 10 + digVal c2) rest2 else none
    else none

/-- A Python decimal numeral: a digit followed by digits with optional
single separating underscores. -/
def digitsU : Str → Option Nat
  | [] => none
  | c :: rest => if isDig c then digitsTail (digVal c) rest else none

/-- Python `int(str)` (ASCII level): surrounding whitespace is
stripped, then an optional sign directly precedes a decimal numeral
that may contain single underscores between digits. -/
def strToInt (s : Str) : Option Int :=
  match stripWs s with
  | '-' :: rest => (digitsU rest).map (fun n => -(n : Int))
  | '+' :: rest => (digitsU rest).map (fun n => (n : Int))
  | s2 => (digitsU s2).map (fun n => (n : Int))

/-- Python `int(x)` on a JSON-loaded value: ints are themselves,
booleans convert to 0/1, strings must spell a decimal integer
(`ValueError` otherwise); `None`, lists and dicts raise `TypeError`. -/
def pyInt : JVal → Except PyExc Int
  | JVal.jnum n => Except.ok n
  | JVal.jbool b => Except.ok (if b then 1 else 0)
  | JVal.jstr s =>
    match strToInt s with
    | some n => Except.ok n
    | none => Except.error PyExc.valueError
  | JVal.jnull => Except.error PyExc.typeError
  | JVal.jarr _ => Except.error PyExc.typeError
  | JVal.jobj _ => Except.error PyExc.typeError

/-- Python `str.lower` (ASCII-level). -/
def lowerStr (s : Str) : Str := s.map Char.toLower

/-- Python `str(x)` as interpolated by f-strings.  The handlers only
ever format the stored `type` field (a string in every verified
scenario) and integers; containers receive a serialization-shaped
rendering. -/
def fstr : JVal → Str
  | JVal.jstr s => s
  | JVal.jnum n => intToChars n
  | JVal.jbool true => "True".toList
  | JVal.jbool false => "False".toList
  | JVal.jnull => "None".toList
  | v => jdumps v

/-! ## Events, backend oracle, responses -/

/-- The `queryStringParameters` member of an API Gateway proxy event:
absent, JSON `null` (Python `None`), or a string map. -/
inductive QspField where
  | absent
  | null
  | dict (params : List (Str × Str))

/-- First-match lookup in a string map (Python `dict.get`). -/
def lookupStr : List (Str × Str) → Str → Option Str
  | [], _ => none
  | (k, v) :: rest, key => if k = key then some v else lookupStr rest key

/-- An API Gateway proxy event (only the fields `cache_access.py`
reads). -/
structure Event where
  path : Str
  httpMethod : Str
  queryStringParameters : QspField
  body : Option Str

/-- Oracle for the redis client and `uuid.uuid4`: what each backend
call returns, or whether it raises `redis.RedisError`. -/
structure Backend where
  pingOk : Bool
  getResult : Str → Except Unit (Option Str)
  ttlResult : Str → Except Unit Int
  newKey : Nat → Str
  setexFails : Nat → Bool
  now : Str

/-- One backend call, as attempted by a handler. -/
inductive CacheCall where
  | ping
  | getCall (key : Str)
  | ttlCall (key : Str)
  | setex (key : Str) (ttl : Int) (value : Str)

/-- A CloudWatch metric emission. -/
inductive Metric where
  | getNotFound
  | getSuccess
  | postFail
  | postSuccess
  | postCount (n : Nat)

/-- An HTTP response; the body is the JSON value the code passes to
`json.dumps`. -/
structure Response where
  statusCode : Nat
  headers : List (Str × Str)
  body : JVal

/-- Outcome of a handler: the response (or the Python exception that
escapes it), the metrics emitted, the backend calls attempted, and the
entries successfully stored — in order. -/
structure HResult where
  result : Except PyExc Response
  metrics : List Metric
  calls : List CacheCall
  stored : List (Str × Int × Str)

def errorKey : Str := "error".toList

def typeKey : Str := "type".toList

def valueKey : Str := "value".toList

def putsKey : Str := "puts".toList

def ttlKey : Str := "ttlseconds".toList

def uuidKey : Str := "uuid".toList

def responsesKey : Str := "responses".toList

/-- A response with no headers. -/
def mkResp (code : Nat) (body : JVal) : Response := ⟨code, [], body⟩

/-- The uniform `{"error": msg}` body. -/
def errBody (msg : Str) : JVal := JVal.jobj [(errorKey, JVal.jstr msg)]

/-! ## The handlers -/

/-- `handle_health_check`: ping redis and report healthy.  A failing
ping raises out of the handler (no local `try`); the router maps it
to 500. -/
def handle_health_check (bk : Backend) : HResult :=
  if bk.pingOk then
    ⟨Except.ok (mkResp 200 (JVal.jobj
      [("status".toList, JVal.jstr ("healthy".toList)),
       ("cache".toList, JVal.jstr ("connected".toList)),
       ("timestamp".toList, JVal.jstr bk.now)])),
     [], [CacheCall.ping], []⟩
  else ⟨Except.error PyExc.redisError, [], [CacheCall.ping], []⟩

/-- The body of `handle_get_request` after
`event.get("queryStringParameters", {}).get("uuid")` has produced
`key?`. -/
def getWithKey (bk : Backend) (key? : Option Str) : HResult :=
  match key? with
  | none => ⟨Except.ok (mkResp 400 (errBody ("Missing uuid parameter").toList)), [], [], []⟩
  | some k =>
    if k = [] then
      ⟨Except.ok (mkResp 400 (errBody ("Missing uuid parameter").toList)), [], [], []⟩
    else
      match bk.getResult k with
      | Except.error _ =>
        ⟨Except.ok (mkResp 500 (errBody ("Cache error").toList)), [], [CacheCall.getCall k], []⟩
      | Except.ok none =>
        ⟨Except.ok (mkResp 404 (errBody ("Uuid not found").toList)),
         [Metric.getNotFound], [CacheCall.getCall k], []⟩
      | Except.ok (some raw) =>
        match jloads raw with
        | none =>
          ⟨Except.ok (mkResp 500 (errBody ("Invalid cached value format").toList)),
           [], [CacheCall.getCall k], []⟩
        | some parsed_value =>
          match parsed_value with
          | JVal.jobj fields =>
            match lookupField fields typeKey, lookupField fields valueKey with
            | some tv, some vv =>
              match bk.ttlResult k with
              | Except.error _ =>
                ⟨Except.ok (mkResp 500 (errBody ("Cache error").toList)),
                 [], [CacheCall.getCall k, CacheCall.ttlCall k], []⟩
              | Except.ok remaining_ttl =>
                ⟨Except.ok ⟨200,
                  [("Cache-Control".toList, "max-age=".toList ++ intToChars remaining_ttl),
                   ("Content-Type".toList, "application/".toList ++ fstr tv)], vv⟩,
                 [Metric.getSuccess], [CacheCall.getCall k, CacheCall.ttlCall k], []⟩
            | _, _ =>
              ⟨Except.ok (mkResp 500 (errBody ("Invalid cached value structure").toList)),
               [], [CacheCall.getCall k], []⟩
          | _ =>
            ⟨Except.ok (mkResp 500 (errBody ("Invalid cached value structure").toList)),
             [], [CacheCall.getCall k], []⟩

/-- `handle_get_request`.  `event.get("queryStringParameters", {})`
yields `{}` when the member is absent but `None` when it is present
and null, in which case `.get("uuid")` raises `AttributeError`. -/
def handle_get_request (bk : Backend) (e : Event) : HResult :=
  match e.queryStringParameters with
  | QspField.null => ⟨Except.error PyExc.attributeError, [], [], []⟩
  | QspField.absent => getWithKey bk none
  | QspField.dict m => getWithKey bk (lookupStr m uuidKey)

/-- The characters of `"xml"`. -/
def xmlChars : Str := ['x', 'm', 'l']

/-- The characters of `"json"`. -/
def jsonChars : Str := ['j', 's', 'o', 'n']

/-- The characters of `"csv"`. -/
def csvChars : Str := ['c', 's', 'v']

/-- The fixed `ALLOWED_TYPES` set. -/
def ALLOWED_TYPES : List Str := [xmlChars, jsonChars]

/-- Python `item["type"] in ALLOWED_TYPES` (the negation of the
source's `not in` test): membership of a JSON-loaded value in the
string set.  Hashable non-strings (null, booleans, numbers) are simply
not members; lists and dicts are unhashable, so the membership test
itself raises `TypeError`. -/
def isAllowedType : JVal → Except PyExc Bool
  | JVal.jstr s => Except.ok (decide (s ∈ ALLOWED_TYPES))
  | JVal.jarr _ => Except.error PyExc.typeError
  | JVal.jobj _ => Except.error PyExc.typeError
  | _ => Except.ok false

/-- `validate_post_ttlseconds`: `int(ttlseconds)` must land in
`(0, 3600]`.  Only `ValueError` is caught (non-numeric strings);
a `TypeError` (e.g. from `None` or a list) escapes. -/
def validate_post_ttlseconds (ttlseconds : JVal) : Except PyExc Bool :=
  match pyInt ttlseconds with
  | Except.ok ttl => if ttl ≤ 0 ∨ ttl > 3600 then Except.ok false else Except.ok true
  | Except.error PyExc.valueError => Except.ok false
  | Except.error e => Except.error e

/-- `validate_post_puts`: every item must be an object with `type` in
the allowed set and a `value`; `item.get("ttlseconds", 0)` must
validate (note the default `0`, which never validates).  The set
membership test may itself raise `TypeError` (unhashable `type`), and
so may the ttl check; both escape. -/
def validate_post_puts : List JVal → Except PyExc Bool
  | [] => Except.ok true
  | item :: rest =>
    match item with
    | JVal.jobj fields =>
      if !(hasField fields typeKey && hasField fields valueKey) then Except.ok false
      else
        match isAllowedType (lookupD fields typeKey JVal.jnull) with
        | Except.error e => Except.error e
        | Except.ok false => Except.ok false
        | Except.ok true =>
          match validate_post_ttlseconds (lookupD fields ttlKey (JVal.jnum 0)) with
          | Except.ok false => Except.ok false
          | Except.ok true => validate_post_puts rest
          | Except.error e => Except.error e
    | _ => Except.ok false

/-- `validate_post_body`: an object with a `puts` list whose items all
validate. -/
def validate_post_body (request_data : JVal) : Except PyExc Bool :=
  match request_data with
  | JVal.jobj fields =>
    match lookupField fields putsKey with
    | none => Except.ok false
    | some (JVal.jarr items) => validate_post_puts items
    | some _ => Except.ok false
  | _ => Except.ok false

/-- One iteration of the POST storage loop before the `setex` call:
`ttlseconds = int(item.get("ttlseconds", 300))`, clamping out-of-range
values to the 300s default, then the `cache_value` record
`{"type": item["type"].lower(), "value": item["value"]}`. -/
def postStep (item : JVal) : Except PyExc (Int × JVal) :=
  match item with
  | JVal.jobj fields =>
    match pyInt (lookupD fields ttlKey (JVal.jnum 300)) with
    | Except.error e => Except.error e
    | Except.ok t0 =>
      let t : Int := if t0 ≤ 0 ∨ t0 > 3600 then 300 else t0
      match lookupField fields typeKey with
      | none => Except.error PyExc.keyError
      | some (JVal.jstr s) =>
        match lookupField fields valueKey with
        | none => Except.error PyExc.keyError
        | some v =>
          Except.ok (t, JVal.jobj [(typeKey, JVal.jstr (lowerStr s)), (valueKey, v)])
      | some _ => Except.error PyExc.attributeError
  | _ => Except.error PyExc.attributeError

/-- The POST storage loop: for each item, resolve the TTL, generate a
key and `setex` the serialized record.  A `redis.RedisError` aborts
the loop; entries stored by earlier iterations remain stored. -/
def postLoop (bk : Backend) :
    List JVal → Nat → Except PyExc (List JVal) × List CacheCall × List (Str × Int × Str)
  | [], _ => (Except.ok [], [], [])
  | item :: rest, i =>
    match postStep item with
    | Except.error e => (Except.error e, [], [])
    | Except.ok (t, cv) =>
      let key := bk.newKey i
      let raw := jdumps cv
      if bk.setexFails i then
        (Except.error PyExc.redisError, [CacheCall.setex key t raw], [])
      else
        match postLoop bk rest (i + 1) with
        | (res, calls, stored) =>
          (res.map (fun rs => JVal.jobj [(uuidKey, JVal.jstr key)] :: rs),
           CacheCall.setex key t raw :: calls,
           (key, t, raw) :: stored)

/-- `request_data["puts"]` as a list (guaranteed by validation). -/
def putsOf (request_data : JVal) : List JVal :=
  match request_data with
  | JVal.jobj fields =>
    match lookupField fields putsKey with
    | some (JVal.jarr items) => items
    | _ => []
  | _ => []

/-- The part of `handle_post_request` after `json.loads` succeeded:
validation (which may itself raise), then the storage loop inside
`try: ... except redis.RedisError`. -/
def postAfterLoad (bk : Backend) (request_data : JVal) : HResult :=
  match validate_post_body request_data with
  | Except.error e2 => ⟨Except.error e2, [], [], []⟩
  | Except.ok false =>
    ⟨Except.ok (mkResp 400 (errBody ("Invalid request body").toList)),
     [Metric.postFail], [], []⟩
  | Except.ok true =>
    match postLoop bk (putsOf request_data) 0 with
    | (Except.ok rs, calls, stored) =>
      ⟨Except.ok (mkResp 200 (JVal.jobj [(responsesKey, JVal.jarr rs)])),
       [Metric.postCount (putsOf request_data).length, Metric.postSuccess],
       calls, stored⟩
    | (Except.error PyExc.redisError, calls, stored) =>
      ⟨Except.ok (mkResp 500 (errBody ("Cache error").toList)),
       [Metric.postCount (putsOf request_data).length, Metric.postFail],
       calls, stored⟩
    | (Except.error e2, calls, stored) =>
      ⟨Except.error e2, [Metric.postCount (putsOf request_data).length], calls, stored⟩

/-- `handle_post_request`.  `json.loads` of a malformed body raises
outside any `try`; validation may raise (`TypeError`); the `try`
around the loop catches only `redis.RedisError`. -/
def handle_post_request (bk : Backend) (e : Event) : HResult :=
  match e.body with
  | none =>
    ⟨Except.ok (mkResp 400 (errBody ("Missing request body").toList)),
     [Metric.postFail], [], []⟩
  | some b =>
    if b = [] then
      ⟨Except.ok (mkResp 400 (errBody ("Missing request body").toList)),
       [Metric.postFail], [], []⟩
    else
      match jloads b with
      | none => ⟨Except.error PyExc.jsonDecodeError, [], [], []⟩
      | some request_data => postAfterLoad bk request_data

/-- The routing `if` chain of `handler`, before the catch-all. -/
def dispatchEvent (bk : Backend) (e : Event) : HResult :=
  if e.path = ("/cache/health").toList then handle_health_check bk
  else if ¬(e.path = ("/cache").toList) then
    ⟨Except.ok (mkResp 404 (errBody ("Not found").toList)), [], [], []⟩
  else if e.httpMethod = ("GET").toList then handle_get_request bk e
  else if e.httpMethod = ("POST").toList then handle_post_request bk e
  else ⟨Except.ok (mkResp 405 (errBody ("Method not allowed").toList)), [], [], []⟩

/-- `handler`: route, and map any escaping exception to a generic 500
(the outermost `except Exception`). -/
def handler (bk : Backend) (e : Event) :
    Response × List Metric × List CacheCall × List (Str × Int × Str) :=
  match dispatchEvent bk e with
  | ⟨Except.ok resp, ms, cs, st⟩ => (resp, ms, cs, st)
  | ⟨Except.error _, ms, cs, st⟩ =>
    (mkResp 500 (errBody ("Internal server error").toList), ms, cs, st)

/-! ## Helper lemmas about validation and the storage loop -/

theorem dispatch_get (bk : Backend) (e : Event)
    (hp : e.path = ("/cache").toList) (hm : e.httpMethod = ("GET").toList) :
    dispatchEvent bk e = handle_get_request bk e := by
  simp [dispatchEvent, hp, hm]

theorem dispatch_post (bk : Backend) (e : Event)
    (hp : e.path = ("/cache").toList) (hm : e.httpMethod = ("POST").toList) :
    dispatchEvent bk e = handle_post_request bk e := by
  simp [dispatchEvent, hp, hm]

theorem handler_ok (bk : Backend) (e : Event) (resp : Response) (ms : List Metric)
    (cs : List CacheCall) (st : List (Str × Int × Str))
    (h : dispatchEvent bk e = ⟨Except.ok resp, ms, cs, st⟩) :
    handler bk e = (resp, ms, cs, st) := by
  simp [handler, h]

theorem handler_err (bk : Backend) (e : Event) (ex : PyExc) (ms : List Metric)
    (cs : List CacheCall) (st : List (Str × Int × Str))
    (h : dispatchEvent bk e = ⟨Except.error ex, ms, cs, st⟩) :
    handler bk e = (mkResp 500 (errBody ("Internal server error").toList), ms, cs, st) := by
  simp [handler, h]

theorem validate_body_puts (d : JVal) (h : validate_post_body d = Except.ok true) :
    validate_post_puts (putsOf d) = Except.ok true := by
  cases d with
  | jobj fields =>
    simp only [validate_post_body] at h
    cases hq : lookupField fields putsKey with
    | none => rw [hq] at h; simp at h
    | some p =>
      rw [hq] at h
      cases p with
      | jarr items => simpa [putsOf, hq] using h
      | jnull => simp at h
      | jbool b => simp at h
      | jnum n => simp at h
      | jstr s => simp at h
      | jobj fs => simp at h
  | jnull => simp [validate_post_body] at h
  | jbool b => simp [validate_post_body] at h
  | jnum n => simp [validate_post_body] at h
  | jstr s => simp [validate_post_body] at h
  | jarr xs => simp [validate_post_body] at h

theorem validate_cons (it : JVal) (rest : List JVal)
    (h : validate_post_puts (it :: rest) = Except.ok true) :
    (∃ fields, it = JVal.jobj fields ∧ hasField fields typeKey = true ∧
      hasField fields valueKey = true ∧
      isAllowedType (lookupD fields typeKey JVal.jnull) = Except.ok true ∧
      validate_post_ttlseconds (lookupD fields ttlKey (JVal.jnum 0)) = Except.ok true) ∧
    validate_post_puts rest = Except.ok true := by
  cases it with
  | jobj fields =>
    simp only [validate_post_puts] at h
    split_ifs at h with hA
    · simp at h
    · cases hB : isAllowedType (lookupD fields typeKey JVal.jnull) with
      | error ex => rw [hB] at h; simp at h
      | ok bb =>
        rw [hB] at h
        cases bb with
        | false => simp at h
        | true =>
          cases hv : validate_post_ttlseconds (lookupD fields ttlKey (JVal.jnum 0)) with
          | error ex => rw [hv] at h; simp at h
          | ok bv =>
            rw [hv] at h
            cases bv with
            | false => simp at h
            | true =>
              simp only [Bool.not_eq_true', Bool.and_eq_false_iff] at hA
              have hAB : hasField fields typeKey = true ∧ hasField fields valueKey = true := by
                constructor
                · cases hx : hasField fields typeKey
                  · exact absurd (Or.inl hx) hA
                  · rfl
                · cases hx : hasField fields valueKey
                  · exact absurd (Or.inr hx) hA
                  · rfl
              exact ⟨⟨fields, rfl, hAB.1, hAB.2, hB, hv⟩, h⟩
  | jnull => simp [validate_post_puts] at h
  | jbool b => simp [validate_post_puts] at h
  | jnum n => simp [validate_post_puts] at h
  | jstr s => simp [validate_post_puts] at h
  | jarr xs => simp [validate_post_puts] at h

theorem validate_ttl_ok (s : JVal) (h : validate_post_ttlseconds s = Except.ok true) :
    ∃ t, pyInt s = Except.ok t ∧ 0 < t ∧ t ≤ 3600 := by
  unfold validate_post_ttlseconds at h
  split at h
  · rename_i ttl heq
    split_ifs at h with hr
    · simp at h
    · push_neg at hr
      exact ⟨ttl, heq, by omega, by omega⟩
  · simp at h
  · simp at h

theorem validHead_shape (fields : List (Str × JVal))
    (h1 : hasField fields typeKey = true) (h1v : hasField fields valueKey = true)
    (h2 : isAllowedType (lookupD fields typeKey JVal.jnull) = Except.ok true)
    (hv : validate_post_ttlseconds (lookupD fields ttlKey (JVal.jnum 0)) = Except.ok true) :
    ∃ s t cv, lookupField fields ttlKey = some s ∧ pyInt s = Except.ok t ∧
      0 < t ∧ t ≤ 3600 ∧ postStep (JVal.jobj fields) = Except.ok (t, cv) := by
  cases htl : lookupField fields ttlKey with
  | none =>
    rw [show lookupD fields ttlKey (JVal.jnum 0) = JVal.jnum 0 from by simp [lookupD, htl]] at hv
    rw [show validate_post_ttlseconds (JVal.jnum 0) = Except.ok false from rfl] at hv
    simp at hv
  | some s =>
    rw [show lookupD fields ttlKey (JVal.jnum 0) = s from by simp [lookupD, htl]] at hv
    obtain ⟨t, hpy, ht1, ht2⟩ := validate_ttl_ok s hv
    obtain ⟨tv, htv⟩ : ∃ tv, lookupField fields typeKey = some tv := by
      unfold hasField at h1
      exact Option.isSome_iff_exists.mp h1
    obtain ⟨vv, hvv⟩ : ∃ vv, lookupField fields valueKey = some vv := by
      unfold hasField at h1v
      exact Option.isSome_iff_exists.mp h1v
    rw [show lookupD fields typeKey JVal.jnull = tv from by simp [lookupD, htv]] at h2
    cases tv with
    | jstr sty =>
      refine ⟨s, t, JVal.jobj [(typeKey, JVal.jstr (lowerStr sty)), (valueKey, vv)],
        rfl, hpy, ht1, ht2, ?_⟩
      simp only [postStep]
      rw [show lookupD fields ttlKey (JVal.jnum 300) = s from by simp [lookupD, htl], hpy]
      simp only [htv, hvv]
      rw [if_neg (by omega)]
    | jnull => simp [isAllowedType] at h2
    | jbool b => simp [isAllowedType] at h2
    | jnum n => simp [isAllowedType] at h2
    | jarr xs => simp [isAllowedType] at h2
    | jobj fs => simp [isAllowedType] at h2

theorem validItems_postStep (items : List JVal) (h : validate_post_puts items = Except.ok true) :
    ∀ item ∈ items, ∃ fields s t cv, item = JVal.jobj fields ∧
      lookupField fields ttlKey = some s ∧ pyInt s = Except.ok t ∧
      0 < t ∧ t ≤ 3600 ∧ postStep item = Except.ok (t, cv) := by
  induction items with
  | nil => intro item hmem; exact absurd hmem (List.not_mem_nil item)
  | cons it rest ih =>
    intro item hmem
    obtain ⟨⟨fields, hit, hA, hAv, hB, hv⟩, hrest⟩ := validate_cons it rest h
    rcases List.mem_cons.mp hmem with rfl | h3
    · obtain ⟨s, t, cv, htl, hpy, ht1, ht2, hps⟩ := validHead_shape fields hA hAv hB hv
      exact ⟨fields, s, t, cv, hit, htl, hpy, ht1, ht2, by rw [hit]; exact hps⟩
    · exact ih hrest item h3

/-- Expected successfully stored entries for a run of the loop from
index `i`. -/
def expStored (bk : Backend) : Nat → List JVal → List (Str × Int × Str)
  | _, [] => []
  | i, item :: rest =>
    match postStep item with
    | Except.ok (t, cv) => (bk.newKey i, t, jdumps cv) :: expStored bk (i + 1) rest
    | Except.error _ => []

/-- Expected `{"uuid": key}` response entries. -/
def expResponses (bk : Backend) : Nat → List JVal → List JVal
  | _, [] => []
  | i, _ :: rest => JVal.jobj [(uuidKey, JVal.jstr (bk.newKey i))] :: expResponses bk (i + 1) rest

/-- Expected `setex` calls. -/
def expCalls (bk : Backend) : Nat → List JVal → List CacheCall
  | _, [] => []
  | i, item :: rest =>
    match postStep item with
    | Except.ok (t, cv) => CacheCall.setex (bk.newKey i) t (jdumps cv) :: expCalls bk (i + 1) rest
    | Except.error _ => []

theorem postLoop_ok (bk : Backend) : ∀ (items : List JVal) (i : Nat),
    (∀ item ∈ items, ∃ t cv, postStep item = Except.ok (t, cv)) →
    (∀ j, j < items.length → bk.setexFails (i + j) = false) →
    postLoop bk items i
      = (Except.ok (expResponses bk i items), expCalls bk i items, expStored bk i items) := by
  intro items
  induction items with
  | nil => intro i _ _; simp [postLoop, expResponses, expCalls, expStored]
  | cons item rest ih =>
    intro i hstep hsf
    obtain ⟨t, cv, hpc⟩ := hstep item (List.mem_cons_self item rest)
    have hf0 : bk.setexFails i = false := by
      have := hsf 0 (by simp)
      simpa using this
    have hrec := ih (i + 1) (fun it hit => hstep it (List.mem_cons_of_mem item hit))
      (fun j hj => by
        have := hsf (j + 1) (by simp only [List.length_cons]; omega)
        rwa [show i + (j + 1) = i + 1 + j from by omega] at this)
    simp [postLoop, hpc, hf0, hrec, expResponses, expCalls, expStored, Except.map]

theorem postLoop_fail (bk : Backend) : ∀ (pre : List JVal) (item : JVal) (suf : List JVal)
    (i : Nat) (t : Int) (cv : JVal),
    (∀ it ∈ pre, ∃ t2 cv2, postStep it = Except.ok (t2, cv2)) →
    postStep item = Except.ok (t, cv) →
    (∀ j, j < pre.length → bk.setexFails (i + j) = false) →
    bk.setexFails (i + pre.length) = true →
    postLoop bk (pre ++ item :: suf) i =
      (Except.error PyExc.redisError,
       expCalls bk i pre ++ [CacheCall.setex (bk.newKey (i + pre.length)) t (jdumps cv)],
       expStored bk i pre) := by
  intro pre
  induction pre with
  | nil =>
    intro item suf i t cv _ hpc _ hfail
    have hfail0 : bk.setexFails i = true := by simpa using hfail
    simp [postLoop, hpc, hfail0, expCalls, expStored]
  | cons p pre ih =>
    intro item suf i t cv hsteps hpc hok hfail
    obtain ⟨t2, cv2, hp2⟩ := hsteps p (List.mem_cons_self p pre)
    have hf0 : bk.setexFails i = false := by
      have := hok 0 (by simp)
      simpa using this
    have hrec := ih item suf (i + 1) t cv
      (fun it hit => hsteps it (List.mem_cons_of_mem p hit)) hpc
      (fun j hj => by
        have := hok (j + 1) (by simp only [List.length_cons]; omega)
        rwa [show i + (j + 1) = i + 1 + j from by omega] at this)
      (by rwa [show i + (p :: pre).length = i + 1 + pre.length from by
        simp only [List.length_cons]; omega] at hfail)
    simp only [List.cons_append, postLoop, hp2, hf0, Bool.false_eq_true, if_false, ite_false,
      List.append_eq]
    rw [hrec, show i + (p :: pre).length = i + 1 + pre.length from by
      simp only [List.length_cons]; omega]
    simp [Except.map, expCalls, expStored, hp2]

/-! ## Concrete fixtures and claim-level definitions -/

/-- Is the loaded value a JSON object (Python `dict`)? -/
def isObjJ : JVal → Bool
  | JVal.jobj _ => true
  | _ => false

/-- Is the loaded value a JSON array (Python `list`)? -/
def isArrJ : JVal → Bool
  | JVal.jarr _ => true
  | _ => false

/-- The `cache_value` record stored for a `type=json` item. -/
def cacheValJson (V : JVal) : JVal :=
  JVal.jobj [(typeKey, JVal.jstr jsonChars), (valueKey, V)]

/-- A single `puts` item `{"type": "json", "value": V, "ttlseconds": t}`. -/
def postItemJson (V : JVal) (t : Int) : JVal :=
  JVal.jobj [(typeKey, JVal.jstr jsonChars), (valueKey, V), (ttlKey, JVal.jnum t)]

/-- A POST body storing exactly one `type=json` item. -/
def postBodyJson (V : JVal) (t : Int) : JVal :=
  JVal.jobj [(putsKey, JVal.jarr [postItemJson V t])]

/-- Modelled from the spec: the claimed effective-TTL rule — the
supplied `ttlseconds` when it is present and an integer in
`(0, 3600]`, and otherwise (absent, zero, negative, above 3600, or
non-numeric) the 300-second default.  This is the spec-side function,
for comparison against what the code does. -/
def specEffectiveTtl : Option JVal → Int
  | some (JVal.jnum n) => if 0 < n ∧ n ≤ 3600 then n else 300
  | _ => 300

/-- The raw `ttlseconds` member of an item, when present. -/
def itemTtlField : JVal → Option JVal
  | JVal.jobj fields => lookupField fields ttlKey
  | _ => none

/-- A benign concrete backend for witnesses. -/
def bk0 : Backend :=
  ⟨true, fun _ => Except.ok none, fun _ => Except.ok 0,
   fun _ => ("k0").toList, fun _ => false, ("ts").toList⟩

/-! ## The claims -/

/-- Claim C3: routing matrix — `/cache/health` is dispatched to the
health-check handler regardless of method; any path other than
`/cache` and `/cache/health` yields 404; `/cache` with GET goes to
the get handler and with POST to the post handler; `/cache` with any
other method yields 405; and no (method, path) combination outside
those routes ever yields 200. -/
theorem c3_routing_matrix (bk : Backend) (e : Event) :
    (e.path = ("/cache/health").toList → dispatchEvent bk e = handle_health_check bk) ∧
    (e.path ≠ ("/cache/health").toList → e.path ≠ ("/cache").toList →
      handler bk e = (mkResp 404 (errBody ("Not found").toList), [], [], [])) ∧
    (e.path = ("/cache").toList → e.httpMethod = ("GET").toList →
      dispatchEvent bk e = handle_get_request bk e) ∧
    (e.path = ("/cache").toList → e.httpMethod = ("POST").toList →
      dispatchEvent bk e = handle_post_request bk e) ∧
    (e.path = ("/cache").toList → e.httpMethod ≠ ("GET").toList →
      e.httpMethod ≠ ("POST").toList →
      handler bk e = (mkResp 405 (errBody ("Method not allowed").toList), [], [], [])) ∧
    ((e.path ≠ ("/cache/health").toList ∧ e.path ≠ ("/cache").toList) ∨
      (e.path = ("/cache").toList ∧ e.httpMethod ≠ ("GET").toList ∧
        e.httpMethod ≠ ("POST").toList) →
      (handler bk e).1.statusCode ≠ 200) := by
  have p404 : e.path ≠ ("/cache/health").toList → e.path ≠ ("/cache").toList →
      handler bk e = (mkResp 404 (errBody ("Not found").toList), [], [], []) := by
    intro h1 h2
    refine handler_ok _ _ _ _ _ _ ?_
    unfold dispatchEvent
    rw [if_neg h1, if_pos h2]
  have p405 : e.path = ("/cache").toList → e.httpMethod ≠ ("GET").toList →
      e.httpMethod ≠ ("POST").toList →
      handler bk e = (mkResp 405 (errBody ("Method not allowed").toList), [], [], []) := by
    intro h1 h2 h3
    refine handler_ok _ _ _ _ _ _ ?_
    unfold dispatchEvent
    rw [if_neg (show ¬(e.path = ("/cache/health").toList) from by rw [h1]; decide)]
    rw [if_neg (not_not_intro h1), if_neg h2, if_neg h3]
  refine ⟨?_, p404, ?_, ?_, p405, ?_⟩
  · intro h1; simp [dispatchEvent, h1]
  · intro h1 h2; exact dispatch_get bk e h1 h2
  · intro h1 h2; exact dispatch_post bk e h1 h2
  · intro h
    rcases h with ⟨h1, h2⟩ | ⟨h1, h2, h3⟩
    · rw [p404 h1 h2]; simp [mkResp]
    · rw [p405 h1 h2 h3]; simp [mkResp]

theorem c3_routing_matrix_witness :
    dispatchEvent bk0 ⟨("/cache/health").toList, ("DELETE").toList, QspField.absent, none⟩
      = handle_health_check bk0 ∧
    handler bk0 ⟨("/nope").toList, ("GET").toList, QspField.absent, none⟩
      = (mkResp 404 (errBody ("Not found").toList), [], [], []) ∧
    handler bk0 ⟨("/cache").toList, ("PUT").toList, QspField.absent, none⟩
      = (mkResp 405 (errBody ("Method not allowed").toList), [], [], []) ∧
    (handler bk0 ⟨("/cache").toList, ("PUT").toList, QspField.absent, none⟩).1.statusCode ≠ 200 :=
  ⟨(c3_routing_matrix bk0 _).1 rfl,
   (c3_routing_matrix bk0 _).2.1 (by decide) (by decide),
   (c3_routing_matrix bk0 _).2.2.2.2.1 rfl (by decide) (by decide),
   (c3_routing_matrix bk0 _).2.2.2.2.2 (Or.inr ⟨rfl, by decide, by decide⟩)⟩

/-- Claim C7: a GET to `/cache` whose `uuid` query parameter is
missing or empty gets 400 `{"error": "Missing uuid parameter"}`, with
no backend call (and no metric, no storage). -/
theorem c7_get_missing_uuid (bk : Backend) (e : Event)
    (hp : e.path = ("/cache").toList) (hm : e.httpMethod = ("GET").toList)
    (hq : e.queryStringParameters = QspField.absent ∨
      ∃ m, e.queryStringParameters = QspField.dict m ∧
        (lookupStr m uuidKey = none ∨ lookupStr m uuidKey = some [])) :
    handler bk e = (mkResp 400 (errBody ("Missing uuid parameter").toList), [], [], []) := by
  have hget : handle_get_request bk e
      = ⟨Except.ok (mkResp 400 (errBody ("Missing uuid parameter").toList)), [], [], []⟩ := by
    rcases hq with hq | ⟨m, hq, hl | hl⟩
    · simp [handle_get_request, hq, getWithKey]
    · simp [handle_get_request, hq, getWithKey, hl]
    · simp [handle_get_request, hq, getWithKey, hl]
  exact handler_ok _ _ _ _ _ _ (by rw [dispatch_get bk e hp hm]; exact hget)

theorem c7_get_missing_uuid_witness :
    handler bk0 ⟨("/cache").toList, ("GET").toList,
        QspField.dict [(("uuid").toList, [])], none⟩
      = (mkResp 400 (errBody ("Missing uuid parameter").toList), [], [], []) :=
  c7_get_missing_uuid bk0 _ rfl rfl
    (Or.inr ⟨[(("uuid").toList, [])], rfl, Or.inr rfl⟩)

/-- Claim C8: a GET on `/cache` whose `queryStringParameters` is
present but null makes `.get("uuid")` raise `AttributeError`, which
only the router catches, producing 500
`{"error": "Internal server error"}` — not the 400 missing-uuid
response. -/
theorem c8_null_qsp (bk : Backend) (e : Event)
    (hp : e.path = ("/cache").toList) (hm : e.httpMethod = ("GET").toList)
    (hq : e.queryStringParameters = QspField.null) :
    (handle_get_request bk e).result = Except.error PyExc.attributeError ∧
    handler bk e = (mkResp 500 (errBody ("Internal server error").toList), [], [], []) := by
  have hget : handle_get_request bk e = ⟨Except.error PyExc.attributeError, [], [], []⟩ := by
    simp [handle_get_request, hq]
  exact ⟨by rw [hget],
    handler_err _ _ _ _ _ _ (by rw [dispatch_get bk e hp hm]; exact hget)⟩

theorem c8_null_qsp_witness :
    (handle_get_request bk0 ⟨("/cache").toList, ("GET").toList, QspField.null, none⟩).result
      = Except.error PyExc.attributeError ∧
    handler bk0 ⟨("/cache").toList, ("GET").toList, QspField.null, none⟩
      = (mkResp 500 (errBody ("Internal server error").toList), [], [], []) :=
  c8_null_qsp bk0 _ rfl rfl rfl

/-- Claim C9: a POST to `/cache` with a non-empty body that is not
valid JSON raises from `json.loads` outside any `try`, so the router
returns 500 `{"error": "Internal server error"}` and no `PostFail`
metric is emitted. -/
theorem c9_malformed_json (bk : Backend) (e : Event) (b : Str)
    (hp : e.path = ("/cache").toList) (hm : e.httpMethod = ("POST").toList)
    (hb : e.body = some b) (hne : b ≠ []) (hl : jloads b = none) :
    (handle_post_request bk e).result = Except.error PyExc.jsonDecodeError ∧
    handler bk e = (mkResp 500 (errBody ("Internal server error").toList), [], [], []) := by
  have hpost : handle_post_request bk e = ⟨Except.error PyExc.jsonDecodeError, [], [], []⟩ := by
    simp [handle_post_request, hb, hne, hl]
  exact ⟨by rw [hpost],
    handler_err _ _ _ _ _ _ (by rw [dispatch_post bk e hp hm]; exact hpost)⟩

theorem c9_malformed_json_witness :
    (handle_post_request bk0 ⟨("/cache").toList, ("POST").toList, QspField.absent,
        some (("not json").toList)⟩).result = Except.error PyExc.jsonDecodeError ∧
    handler bk0 ⟨("/cache").toList, ("POST").toList, QspField.absent,
        some (("not json").toList)⟩
      = (mkResp 500 (errBody ("Internal server error").toList), [], [], []) :=
  c9_malformed_json bk0 _ (("not json").toList) rfl rfl rfl (by decide) rfl

/-- The C10 fixture: a puts item whose `ttlseconds` is JSON null. -/
def nullTtlItem : JVal :=
  JVal.jobj [(typeKey, JVal.jstr jsonChars), (valueKey, JVal.jnum 1),
    (ttlKey, JVal.jnull)]

/-- The C10 fixture body. -/
def nullTtlBody : JVal := JVal.jobj [(putsKey, JVal.jarr [nullTtlItem])]

/-- Claim C10: `validate_post_ttlseconds` catches only `ValueError`;
whenever `int(...)` raises `TypeError` (e.g. on null or a list) the
exception escapes validation, and the router maps it to 500
`{"error": "Internal server error"}` instead of a 400 validation
response (no `PostFail` metric either). -/
theorem c10_ttl_typeerror :
    (∀ v : JVal, pyInt v = Except.error PyExc.typeError →
      validate_post_ttlseconds v = Except.error PyExc.typeError) ∧
    validate_post_ttlseconds JVal.jnull = Except.error PyExc.typeError ∧
    (∀ xs, validate_post_ttlseconds (JVal.jarr xs) = Except.error PyExc.typeError) ∧
    (∀ (bk : Backend) (e : Event) (b : Str) (d : JVal),
      e.path = ("/cache").toList → e.httpMethod = ("POST").toList →
      e.body = some b → b ≠ [] → jloads b = some d →
      validate_post_body d = Except.error PyExc.typeError →
      handler bk e = (mkResp 500 (errBody ("Internal server error").toList), [], [], [])) := by
  refine ⟨?_, rfl, fun xs => rfl, ?_⟩
  · intro v hv
    unfold validate_post_ttlseconds
    rw [hv]
  · intro bk e b d hp hm hb hne hl hval
    have hpost : handle_post_request bk e = ⟨Except.error PyExc.typeError, [], [], []⟩ := by
      simp [handle_post_request, hb, hne, hl, postAfterLoad, hval]
    exact handler_err _ _ _ _ _ _ (by rw [dispatch_post bk e hp hm]; exact hpost)

theorem c10_ttl_typeerror_witness :
    validate_post_ttlseconds JVal.jnull = Except.error PyExc.typeError ∧
    handler bk0 ⟨("/cache").toList, ("POST").toList, QspField.absent,
        some (jdumps nullTtlBody)⟩
      = (mkResp 500 (errBody ("Internal server error").toList), [], [], []) :=
  ⟨c10_ttl_typeerror.1 JVal.jnull rfl,
   c10_ttl_typeerror.2.2.2 bk0 _ (jdumps nullTtlBody) nullTtlBody rfl rfl rfl
     (by obtain ⟨c, cs, hc, _, _⟩ := jdumps_head nullTtlBody; simp [hc])
     (jloads_jdumps nullTtlBody) rfl⟩

/-- The C5 fixture: a puts item with the disallowed type `"csv"`. -/
def csvItem : JVal :=
  JVal.jobj [(typeKey, JVal.jstr csvChars), (valueKey, JVal.jnum 1)]

/-- The C5 fixture body. -/
def csvBody : JVal := JVal.jobj [(putsKey, JVal.jarr [csvItem])]

/-- The C5 counterexample item: its `type` is a JSON array, which is
unhashable in Python, so the set-membership test raises `TypeError`. -/
def unhashItem : JVal := JVal.jobj [(typeKey, JVal.jarr []), (valueKey, JVal.jnum 1)]

/-- The C5 counterexample body. -/
def unhashBody : JVal := JVal.jobj [(putsKey, JVal.jarr [unhashItem])]

/-- Claim C5 counterexample: the body `{"puts":[{"type":[],"value":1}]}`
has an element whose `type` is not in `{"xml","json"}`, yet the
response is 500 `{"error": "Internal server error"}` with no metric —
not the claimed 400 with `PostFail` — because `[] not in ALLOWED_TYPES`
raises `TypeError` out of validation to the router. -/
theorem c5_unhashable_counterexample :
    validate_post_body unhashBody = Except.error PyExc.typeError ∧
    handler bk0 ⟨("/cache").toList, ("POST").toList, QspField.absent, some (jdumps unhashBody)⟩
      = (mkResp 500 (errBody ("Internal server error").toList), [], [], []) ∧
    (handler bk0 ⟨("/cache").toList, ("POST").toList, QspField.absent,
      some (jdumps unhashBody)⟩).1.statusCode ≠ 400 := by
  have hne : jdumps unhashBody ≠ [] := by
    obtain ⟨c, cs, hc, _, _⟩ := jdumps_head unhashBody
    simp [hc]
  have hval : validate_post_body unhashBody = Except.error PyExc.typeError := rfl
  have hpost : handle_post_request bk0
      ⟨("/cache").toList, ("POST").toList, QspField.absent, some (jdumps unhashBody)⟩
      = ⟨Except.error PyExc.typeError, [], [], []⟩ := by
    simp [handle_post_request, hne, jloads_jdumps, postAfterLoad, hval]
  have hd : dispatchEvent bk0
      ⟨("/cache").toList, ("POST").toList, QspField.absent, some (jdumps unhashBody)⟩
      = handle_post_request bk0
      ⟨("/cache").toList, ("POST").toList, QspField.absent, some (jdumps unhashBody)⟩ :=
    dispatch_post _ _ rfl rfl
  have hh := handler_err _ _ _ _ _ _ (hd.trans hpost)
  exact ⟨rfl, hh, by rw [hh]; decide⟩

/-- Claim C5 (amended): validation atomicity — a POST whose parsed
body fails structural validation with `False` (body not an object,
missing or non-list `puts`, an element missing `type`/`value`, or an
element whose `type` is a string outside `{"xml","json"}` such as
`"csv"`) gets 400 `{"error": "Invalid request body"}` with a
`PostFail` metric, no backend call and no storage; but an element
whose `type` is an unhashable array makes the membership test raise
`TypeError`, and such a body is answered 500
`{"error": "Internal server error"}` with no metric and no storage. -/
theorem c5_validation_atomic :
    (∀ (bk : Backend) (e : Event) (b : Str) (d : JVal),
      e.path = ("/cache").toList → e.httpMethod = ("POST").toList →
      e.body = some b → b ≠ [] → jloads b = some d →
      validate_post_body d = Except.ok false →
      handler bk e = (mkResp 400 (errBody ("Invalid request body").toList),
        [Metric.postFail], [], [])) ∧
    (∀ d, isObjJ d = false → validate_post_body d = Except.ok false) ∧
    (∀ fields, lookupField fields putsKey = none →
      validate_post_body (JVal.jobj fields) = Except.ok false) ∧
    (∀ fields p, lookupField fields putsKey = some p → isArrJ p = false →
      validate_post_body (JVal.jobj fields) = Except.ok false) ∧
    (∀ fields rest, (hasField fields typeKey = false ∨ hasField fields valueKey = false) →
      validate_post_puts (JVal.jobj fields :: rest) = Except.ok false) ∧
    (∀ fields rest s, lookupField fields typeKey = some (JVal.jstr s) →
      s ∉ ALLOWED_TYPES →
      validate_post_puts (JVal.jobj fields :: rest) = Except.ok false) ∧
    (∀ fields rest xs, lookupField fields typeKey = some (JVal.jarr xs) →
      hasField fields valueKey = true →
      validate_post_puts (JVal.jobj fields :: rest) = Except.error PyExc.typeError) ∧
    (∀ (bk : Backend) (e : Event) (b : Str) (d : JVal),
      e.path = ("/cache").toList → e.httpMethod = ("POST").toList →
      e.body = some b → b ≠ [] → jloads b = some d →
      validate_post_body d = Except.error PyExc.typeError →
      handler bk e = (mkResp 500 (errBody ("Internal server error").toList),
        [], [], [])) := by
  refine ⟨?_, ?_, ?_, ?_, ?_, ?_, ?_, ?_⟩
  · intro bk e b d hp hm hb hne hl hval
    have hpost : handle_post_request bk e
        = ⟨Except.ok (mkResp 400 (errBody ("Invalid request body").toList)),
           [Metric.postFail], [], []⟩ := by
      simp [handle_post_request, hb, hne, hl, postAfterLoad, hval]
    exact handler_ok _ _ _ _ _ _ (by rw [dispatch_post bk e hp hm]; exact hpost)
  · intro d hd
    cases d <;> simp_all [isObjJ, validate_post_body]
  · intro fields h
    simp [validate_post_body, h]
  · intro fields p h hp
    cases p <;> simp_all [isArrJ, validate_post_body]
  · intro fields rest h
    rcases h with h | h
    · have h2 : lookupField fields typeKey = none := by
        cases hx : lookupField fields typeKey
        · rfl
        · simp [hasField, hx] at h
      simp [validate_post_puts, hasField, h2]
    · have h2 : lookupField fields valueKey = none := by
        cases hx : lookupField fields valueKey
        · rfl
        · simp [hasField, hx] at h
      simp [validate_post_puts, hasField, h2]
  · intro fields rest s h hs
    have ht : hasField fields typeKey = true := by simp [hasField, h]
    by_cases hv2 : hasField fields valueKey = true
    · simp [validate_post_puts, ht, hv2, lookupD, h, isAllowedType, hs]
    · have hv3 : hasField fields valueKey = false := by
        cases hx : hasField fields valueKey
        · rfl
        · exact absurd hx hv2
      simp [validate_post_puts, ht, hv3]
  · intro fields rest xs h hv2
    have ht : hasField fields typeKey = true := by simp [hasField, h]
    simp [validate_post_puts, ht, hv2, lookupD, h, isAllowedType]
  · intro bk e b d hp hm hb hne hl hval
    have hpost : handle_post_request bk e = ⟨Except.error PyExc.typeError, [], [], []⟩ := by
      simp [handle_post_request, hb, hne, hl, postAfterLoad, hval]
    exact handler_err _ _ _ _ _ _ (by rw [dispatch_post bk e hp hm]; exact hpost)

theorem c5_validation_atomic_witness :
    validate_post_body csvBody = Except.ok false ∧
    handler bk0 ⟨("/cache").toList, ("POST").toList, QspField.absent, some (jdumps csvBody)⟩
      = (mkResp 400 (errBody ("Invalid request body").toList), [Metric.postFail], [], []) ∧
    validate_post_puts [unhashItem] = Except.error PyExc.typeError :=
  ⟨rfl,
   c5_validation_atomic.1 bk0 _ (jdumps csvBody) csvBody rfl rfl rfl
     (by obtain ⟨c, cs, hc, _, _⟩ := jdumps_head csvBody; simp [hc])
     (jloads_jdumps csvBody) rfl,
   c5_validation_atomic.2.2.2.2.2.2.1 [(typeKey, JVal.jarr []), (valueKey, JVal.jnum 1)]
     [] [] rfl rfl⟩

/-- Claim C4: not-found versus corrupted-entry — a GET whose uuid has
no backend value returns 404 `{"error": "Uuid not found"}`
(emitting `GetNotFound`); a uuid whose raw stored value cannot be
parsed as a JSON object containing both `type` and `value` returns a
500 corrupted-entry error (distinct from 404, not blamed on the
client). -/
theorem c4_notfound_vs_corrupted :
    (∀ (bk : Backend) (e : Event) (m : List (Str × Str)) (k : Str),
      e.path = ("/cache").toList → e.httpMethod = ("GET").toList →
      e.queryStringParameters = QspField.dict m → lookupStr m uuidKey = some k → k ≠ [] →
      bk.getResult k = Except.ok none →
      handler bk e = (mkResp 404 (errBody ("Uuid not found").toList),
        [Metric.getNotFound], [CacheCall.getCall k], [])) ∧
    (∀ (bk : Backend) (e : Event) (m : List (Str × Str)) (k : Str) (raw : Str),
      e.path = ("/cache").toList → e.httpMethod = ("GET").toList →
      e.queryStringParameters = QspField.dict m → lookupStr m uuidKey = some k → k ≠ [] →
      bk.getResult k = Except.ok (some raw) → jloads raw = none →
      handler bk e = (mkResp 500 (errBody ("Invalid cached value format").toList),
        [], [CacheCall.getCall k], [])) ∧
    (∀ (bk : Backend) (e : Event) (m : List (Str × Str)) (k : Str) (raw : Str) (pv : JVal),
      e.path = ("/cache").toList → e.httpMethod = ("GET").toList →
      e.queryStringParameters = QspField.dict m → lookupStr m uuidKey = some k → k ≠ [] →
      bk.getResult k = Except.ok (some raw) → jloads raw = some pv →
      (∀ fields, pv = JVal.jobj fields →
        lookupField fields typeKey = none ∨ lookupField fields valueKey = none) →
      handler bk e = (mkResp 500 (errBody ("Invalid cached value structure").toList),
        [], [CacheCall.getCall k], [])) := by
  refine ⟨?_, ?_, ?_⟩
  · intro bk e m k hp hm hq hk hne hget
    have hh : handle_get_request bk e
        = ⟨Except.ok (mkResp 404 (errBody ("Uuid not found").toList)),
           [Metric.getNotFound], [CacheCall.getCall k], []⟩ := by
      simp [handle_get_request, hq, getWithKey, hk, hne, hget]
    exact handler_ok _ _ _ _ _ _ (by rw [dispatch_get bk e hp hm]; exact hh)
  · intro bk e m k raw hp hm hq hk hne hget hl
    have hh : handle_get_request bk e
        = ⟨Except.ok (mkResp 500 (errBody ("Invalid cached value format").toList)),
           [], [CacheCall.getCall k], []⟩ := by
      simp [handle_get_request, hq, getWithKey, hk, hne, hget, hl]
    exact handler_ok _ _ _ _ _ _ (by rw [dispatch_get bk e hp hm]; exact hh)
  · intro bk e m k raw pv hp hm hq hk hne hget hl hbad
    have hh : handle_get_request bk e
        = ⟨Except.ok (mkResp 500 (errBody ("Invalid cached value structure").toList)),
           [], [CacheCall.getCall k], []⟩ := by
      cases pv with
      | jobj fields =>
        rcases hbad fields rfl with hb | hb
        · simp [handle_get_request, hq, getWithKey, hk, hne, hget, hl, hb]
        · cases htv : lookupField fields typeKey with
          | none => simp [handle_get_request, hq, getWithKey, hk, hne, hget, hl, htv]
          | some tv => simp [handle_get_request, hq, getWithKey, hk, hne, hget, hl, htv, hb]
      | jnull => simp [handle_get_request, hq, getWithKey, hk, hne, hget, hl]
      | jbool b => simp [handle_get_request, hq, getWithKey, hk, hne, hget, hl]
      | jnum n => simp [handle_get_request, hq, getWithKey, hk, hne, hget, hl]
      | jstr s => simp [handle_get_request, hq, getWithKey, hk, hne, hget, hl]
      | jarr xs => simp [handle_get_request, hq, getWithKey, hk, hne, hget, hl]
    exact handler_ok _ _ _ _ _ _ (by rw [dispatch_get bk e hp hm]; exact hh)

/-- A backend holding `raw` under every key. -/
def bkRaw (raw : Str) : Backend :=
  ⟨true, fun _ => Except.ok (some raw), fun _ => Except.ok 0,
   fun _ => ("k0").toList, fun _ => false, ("ts").toList⟩

theorem c4_notfound_vs_corrupted_witness :
    handler bk0 ⟨("/cache").toList, ("GET").toList,
        QspField.dict [(("uuid").toList, ("u1").toList)], none⟩
      = (mkResp 404 (errBody ("Uuid not found").toList),
         [Metric.getNotFound], [CacheCall.getCall (("u1").toList)], []) ∧
    handler (bkRaw (("corrupt").toList)) ⟨("/cache").toList, ("GET").toList,
        QspField.dict [(("uuid").toList, ("u1").toList)], none⟩
      = (mkResp 500 (errBody ("Invalid cached value format").toList),
         [], [CacheCall.getCall (("u1").toList)], []) ∧
    handler (bkRaw (jdumps (JVal.jobj []))) ⟨("/cache").toList, ("GET").toList,
        QspField.dict [(("uuid").toList, ("u1").toList)], none⟩
      = (mkResp 500 (errBody ("Invalid cached value structure").toList),
         [], [CacheCall.getCall (("u1").toList)], []) :=
  ⟨c4_notfound_vs_corrupted.1 bk0 _ [(("uuid").toList, ("u1").toList)] (("u1").toList)
     rfl rfl rfl rfl (by decide) rfl,
   c4_notfound_vs_corrupted.2.1 (bkRaw (("corrupt").toList)) _
     [(("uuid").toList, ("u1").toList)] (("u1").toList) (("corrupt").toList)
     rfl rfl rfl rfl (by decide) rfl rfl,
   c4_notfound_vs_corrupted.2.2 (bkRaw (jdumps (JVal.jobj []))) _
     [(("uuid").toList, ("u1").toList)] (("u1").toList) (jdumps (JVal.jobj []))
     (JVal.jobj []) rfl rfl rfl rfl (by decide) rfl (jloads_jdumps (JVal.jobj []))
     (fun fields hf => by cases hf; exact Or.inl rfl)⟩

/-- Claim C6: partial effect on batch failure — when `setex` fails on
the item after `pre` in a validated batch, the handler returns 500
`{"error": "Cache error"}`, emits `PostCount` and `PostFail`, and the
entries stored for `pre` remain stored (no rollback). -/
theorem c6_partial_batch (bk : Backend) (e : Event) (b : Str) (d : JVal)
    (pre : List JVal) (item : JVal) (suf : List JVal)
    (hp : e.path = ("/cache").toList) (hm : e.httpMethod = ("POST").toList)
    (hb : e.body = some b) (hne : b ≠ [])
    (hl : jloads b = some d) (hval : validate_post_body d = Except.ok true)
    (hputs : putsOf d = pre ++ item :: suf)
    (hok : ∀ j, j < pre.length → bk.setexFails j = false)
    (hfail : bk.setexFails pre.length = true) :
    (handler bk e).1 = mkResp 500 (errBody ("Cache error").toList) ∧
    (handler bk e).2.1 = [Metric.postCount (pre ++ item :: suf).length, Metric.postFail] ∧
    (handler bk e).2.2.2 = expStored bk 0 pre := by
  have hvp : validate_post_puts (pre ++ item :: suf) = Except.ok true := by
    rw [← hputs]; exact validate_body_puts d hval
  have hsteps := validItems_postStep _ hvp
  have hpre : ∀ it ∈ pre, ∃ t2 cv2, postStep it = Except.ok (t2, cv2) := by
    intro it hit
    obtain ⟨fields, s, t, cv, _, _, _, _, _, hps⟩ :=
      hsteps it (List.mem_append_left _ hit)
    exact ⟨t, cv, hps⟩
  obtain ⟨fields, s, t, cv, _, _, _, _, _, hpc⟩ :=
    hsteps item (by simp)
  have hloop := postLoop_fail bk pre item suf 0 t cv hpre hpc
    (fun j hj => by simpa using hok j hj) (by simpa using hfail)
  have hpost : handle_post_request bk e
      = ⟨Except.ok (mkResp 500 (errBody ("Cache error").toList)),
         [Metric.postCount (putsOf d).length, Metric.postFail],
         expCalls bk 0 pre ++ [CacheCall.setex (bk.newKey (0 + pre.length)) t (jdumps cv)],
         expStored bk 0 pre⟩ := by
    simp [handle_post_request, hb, hne, hl, postAfterLoad, hval, hputs, hloop]
  have hh := handler_ok _ _ _ _ _ _ (by rw [dispatch_post bk e hp hm]; exact hpost)
  rw [hh]
  exact ⟨rfl, by rw [hputs], rfl⟩

/-- A backend whose `setex` fails exactly on the second item. -/
def bkFail1 : Backend :=
  ⟨true, fun _ => Except.ok none, fun _ => Except.ok 0,
   fun i => if i = 0 then ("k0").toList else ("k1").toList,
   fun i => i == 1, ("ts").toList⟩

/-- The C6 fixture: a two-item batch. -/
def twoItemBody : JVal :=
  JVal.jobj [(putsKey, JVal.jarr [postItemJson (JVal.jnum 1) 60, postItemJson (JVal.jnum 2) 60])]

theorem c6_partial_batch_witness :
    (handler bkFail1 ⟨("/cache").toList, ("POST").toList, QspField.absent,
        some (jdumps twoItemBody)⟩).1 = mkResp 500 (errBody ("Cache error").toList) ∧
    (handler bkFail1 ⟨("/cache").toList, ("POST").toList, QspField.absent,
        some (jdumps twoItemBody)⟩).2.1
      = [Metric.postCount 2, Metric.postFail] ∧
    (handler bkFail1 ⟨("/cache").toList, ("POST").toList, QspField.absent,
        some (jdumps twoItemBody)⟩).2.2.2
      = expStored bkFail1 0 [postItemJson (JVal.jnum 1) 60] := by
  have h := c6_partial_batch bkFail1
    ⟨("/cache").toList, ("POST").toList, QspField.absent, some (jdumps twoItemBody)⟩
    (jdumps twoItemBody) twoItemBody
    [postItemJson (JVal.jnum 1) 60] (postItemJson (JVal.jnum 2) 60) []
    rfl rfl rfl
    (by obtain ⟨c, cs, hc, _, _⟩ := jdumps_head twoItemBody; simp [hc])
    (jloads_jdumps twoItemBody) rfl rfl
    (by
      intro j hj
      rw [List.length_singleton] at hj
      have hj0 : j = 0 := by omega
      subst hj0
      rfl) rfl
  exact ⟨h.1, h.2.1, h.2.2⟩

/-- Claim C2: round-trip — POSTing one `type=json` item with value `V`
(and a valid `ttlseconds`, which validation requires) returns 200 with
one generated uuid and stores the serialized
`{"type": "json", "value": V}` record under it; a subsequent GET with
that uuid, while a backend still holds the record with remaining TTL
`r`, returns 200 with `Cache-Control: max-age=r`,
`Content-Type: application/json`, and body `V` (the envelope
stripped). -/
theorem c2_roundtrip (V : JVal) (t r : Int) (bk bk2 : Backend) (qsp : QspField)
    (ht1 : 0 < t) (ht2 : t ≤ 3600)
    (hkey : bk.newKey 0 ≠ [])
    (hsx : bk.setexFails 0 = false)
    (hget : bk2.getResult (bk.newKey 0) = Except.ok (some (jdumps (cacheValJson V))))
    (httl : bk2.ttlResult (bk.newKey 0) = Except.ok r) :
    handler bk ⟨("/cache").toList, ("POST").toList, qsp, some (jdumps (postBodyJson V t))⟩
      = (mkResp 200 (JVal.jobj [(responsesKey, JVal.jarr
            [JVal.jobj [(uuidKey, JVal.jstr (bk.newKey 0))]])]),
         [Metric.postCount 1, Metric.postSuccess],
         [CacheCall.setex (bk.newKey 0) t (jdumps (cacheValJson V))],
         [(bk.newKey 0, t, jdumps (cacheValJson V))]) ∧
    handler bk2 ⟨("/cache").toList, ("GET").toList,
        QspField.dict [(uuidKey, bk.newKey 0)], none⟩
      = (⟨200, [(("Cache-Control").toList, ("max-age=").toList ++ intToChars r),
                (("Content-Type").toList, ("application/").toList ++ jsonChars)], V⟩,
         [Metric.getSuccess],
         [CacheCall.getCall (bk.newKey 0), CacheCall.ttlCall (bk.newKey 0)], []) := by
  have n1 : valueKey ≠ typeKey := by decide
  have n2 : ttlKey ≠ typeKey := by decide
  have n3 : ttlKey ≠ valueKey := by decide
  have hlookT : lookupField [(typeKey, JVal.jstr jsonChars), (valueKey, V),
      (ttlKey, JVal.jnum t)] typeKey = some (JVal.jstr jsonChars) := by
    simp [lookupField, n1, n2]
  have hlookV : lookupField [(typeKey, JVal.jstr jsonChars), (valueKey, V),
      (ttlKey, JVal.jnum t)] valueKey = some V := by
    simp [lookupField, n3]
  have hlookTTL : lookupField [(typeKey, JVal.jstr jsonChars), (valueKey, V),
      (ttlKey, JVal.jnum t)] ttlKey = some (JVal.jnum t) := by
    simp [lookupField]
  have httlv : validate_post_ttlseconds (JVal.jnum t) = Except.ok true := by
    show (if t ≤ 0 ∨ t > 3600 then (Except.ok false : Except PyExc Bool)
      else Except.ok true) = Except.ok true
    rw [if_neg (by omega)]
  have hvputs : validate_post_puts [postItemJson V t] = Except.ok true := by
    simp only [validate_post_puts, postItemJson]
    simp [hasField, hlookT, hlookV, lookupD, hlookTTL, isAllowedType, ALLOWED_TYPES, httlv]
  have hval2 : validate_post_body (postBodyJson V t) = Except.ok true := by
    simp only [validate_post_body, postBodyJson]
    simp [lookupField, hvputs]
  have hlow : lowerStr jsonChars = jsonChars := by decide
  have hstep : postStep (postItemJson V t) = Except.ok (t, cacheValJson V) := by
    simp only [postStep, postItemJson]
    rw [show lookupD [(typeKey, JVal.jstr jsonChars), (valueKey, V),
      (ttlKey, JVal.jnum t)] ttlKey (JVal.jnum 300) = JVal.jnum t from by
        simp [lookupD, hlookTTL]]
    simp only [pyInt, hlookT, hlookV]
    rw [if_neg (by omega)]
    simp [cacheValJson, hlow]
  have hloop : postLoop bk [postItemJson V t] 0
      = (Except.ok [JVal.jobj [(uuidKey, JVal.jstr (bk.newKey 0))]],
         [CacheCall.setex (bk.newKey 0) t (jdumps (cacheValJson V))],
         [(bk.newKey 0, t, jdumps (cacheValJson V))]) := by
    simp [postLoop, hstep, hsx, Except.map]
  have hputs2 : putsOf (postBodyJson V t) = [postItemJson V t] := by
    simp [putsOf, postBodyJson, lookupField]
  constructor
  · have hne : jdumps (postBodyJson V t) ≠ [] := by
      obtain ⟨c, cs, hc, _, _⟩ := jdumps_head (postBodyJson V t)
      simp [hc]
    have hpost : handle_post_request bk
        ⟨("/cache").toList, ("POST").toList, qsp, some (jdumps (postBodyJson V t))⟩
        = ⟨Except.ok (mkResp 200 (JVal.jobj [(responsesKey, JVal.jarr
              [JVal.jobj [(uuidKey, JVal.jstr (bk.newKey 0))]])])),
           [Metric.postCount 1, Metric.postSuccess],
           [CacheCall.setex (bk.newKey 0) t (jdumps (cacheValJson V))],
           [(bk.newKey 0, t, jdumps (cacheValJson V))]⟩ := by
      simp [handle_post_request, hne, jloads_jdumps, postAfterLoad, hval2, hputs2, hloop]
    exact handler_ok _ _ _ _ _ _ (by rw [dispatch_post _ _ rfl rfl]; exact hpost)
  · have hlookU : lookupStr [(uuidKey, bk.newKey 0)] uuidKey = some (bk.newKey 0) := by
      simp [lookupStr]
    have hlookT2 : lookupField [(typeKey, JVal.jstr jsonChars), (valueKey, V)]
        typeKey = some (JVal.jstr jsonChars) := by
      simp [lookupField, n1]
    have hlookV2 : lookupField [(typeKey, JVal.jstr jsonChars), (valueKey, V)]
        valueKey = some V := by
      simp [lookupField]
    have hh : handle_get_request bk2
        ⟨("/cache").toList, ("GET").toList, QspField.dict [(uuidKey, bk.newKey 0)], none⟩
        = ⟨Except.ok ⟨200,
            [(("Cache-Control").toList, ("max-age=").toList ++ intToChars r),
             (("Content-Type").toList, ("application/").toList ++ jsonChars)], V⟩,
           [Metric.getSuccess],
           [CacheCall.getCall (bk.newKey 0), CacheCall.ttlCall (bk.newKey 0)], []⟩ := by
      simp [handle_get_request, getWithKey, hlookU, hkey, hget, jloads_jdumps,
        cacheValJson, hlookT2, hlookV2, httl, fstr]
    exact handler_ok _ _ _ _ _ _ (by rw [dispatch_get _ _ rfl rfl]; exact hh)

/-- A backend holding the serialized `{"type": "json", "value": 7}`
record with 5 seconds of TTL left. -/
def bkW2 : Backend :=
  ⟨true, fun _ => Except.ok (some (jdumps (cacheValJson (JVal.jnum 7)))),
   fun _ => Except.ok 5, fun _ => ("k0").toList, fun _ => false, ("ts").toList⟩

theorem c2_roundtrip_witness :
    handler bk0 ⟨("/cache").toList, ("POST").toList, QspField.absent,
        some (jdumps (postBodyJson (JVal.jnum 7) 60))⟩
      = (mkResp 200 (JVal.jobj [(responsesKey, JVal.jarr
            [JVal.jobj [(uuidKey, JVal.jstr (("k0").toList))]])]),
         [Metric.postCount 1, Metric.postSuccess],
         [CacheCall.setex (("k0").toList) 60 (jdumps (cacheValJson (JVal.jnum 7)))],
         [((("k0").toList), 60, jdumps (cacheValJson (JVal.jnum 7)))]) ∧
    handler bkW2 ⟨("/cache").toList, ("GET").toList,
        QspField.dict [(uuidKey, ("k0").toList)], none⟩
      = (⟨200, [(("Cache-Control").toList, ("max-age=").toList ++ intToChars 5),
                (("Content-Type").toList, ("application/").toList ++ jsonChars)],
          JVal.jnum 7⟩,
         [Metric.getSuccess],
         [CacheCall.getCall (("k0").toList), CacheCall.ttlCall (("k0").toList)], []) :=
  c2_roundtrip (JVal.jnum 7) 60 5 bk0 bkW2 QspField.absent
    (by decide) (by decide) (by decide) rfl rfl rfl

/-- The C1 counterexample item: `ttlseconds` is the JSON boolean
`true` — a non-numeric value whose Python `int()` is 1. -/
def cexItem : JVal :=
  JVal.jobj [(typeKey, JVal.jstr jsonChars), (valueKey, JVal.jnum 1),
    (ttlKey, JVal.jbool true)]

/-- The C1 counterexample body. -/
def cexBody : JVal := JVal.jobj [(putsKey, JVal.jarr [cexItem])]

/-- Claim C1 counterexample: a body with `ttlseconds = true` passes
structural validation (because `int(True) = 1` lies in `(0, 3600]`),
and the item is then stored with TTL 1 — not the 300 the claim's
effective-TTL rule (`specEffectiveTtl`) assigns to a non-numeric
`ttlseconds`.  So for validated bodies the storage TTL differs from
the claimed rule. -/
theorem c1_ttl_counterexample :
    validate_post_body cexBody = Except.ok true ∧
    postStep cexItem = Except.ok (1, JVal.jobj [(typeKey, JVal.jstr (lowerStr jsonChars)),
      (valueKey, JVal.jnum 1)]) ∧
    (handler bk0 ⟨("/cache").toList, ("POST").toList, QspField.absent,
        some (jdumps cexBody)⟩).2.2.2
      = [((("k0").toList), 1, jdumps (JVal.jobj [(typeKey, JVal.jstr (lowerStr jsonChars)),
          (valueKey, JVal.jnum 1)]))] ∧
    specEffectiveTtl (itemTtlField cexItem) = 300 ∧
    (1 : Int) ≠ 300 := by
  refine ⟨rfl, rfl, ?_, rfl, by decide⟩
  have hl := jloads_jdumps cexBody
  have hne : jdumps cexBody ≠ [] := by
    obtain ⟨c, cs, hc, _, _⟩ := jdumps_head cexBody
    simp [hc]
  have hpost : handle_post_request bk0
      ⟨("/cache").toList, ("POST").toList, QspField.absent, some (jdumps cexBody)⟩
      = postAfterLoad bk0 cexBody := by
    simp [handle_post_request, hne, hl]
  have h3 : postAfterLoad bk0 cexBody
      = ⟨Except.ok (mkResp 200 (JVal.jobj [(responsesKey, JVal.jarr
            [JVal.jobj [(uuidKey, JVal.jstr (("k0").toList))]])])),
         [Metric.postCount 1, Metric.postSuccess],
         [CacheCall.setex (("k0").toList) 1 (jdumps (JVal.jobj
            [(typeKey, JVal.jstr (lowerStr jsonChars)), (valueKey, JVal.jnum 1)]))],
         [((("k0").toList), 1, jdumps (JVal.jobj
            [(typeKey, JVal.jstr (lowerStr jsonChars)), (valueKey, JVal.jnum 1)]))]⟩ := rfl
  rw [handler_ok _ _ _ _ _ _ ((dispatch_post _ _ rfl rfl).trans (hpost.trans h3))]

/-- Claim C1 (amended): for every POST body that passes structural
validation, every item carries an explicit `ttlseconds` whose Python
`int()` conversion `t` lies in `(0, 3600]`, and the effective TTL at
storage is exactly that `t` (so a validated boolean or numeric string
is stored with its converted value); the storage-stage fallback to
300 never fires for validated bodies, because validation — whose
absent-`ttlseconds` default is 0 — never accepts an item without
`ttlseconds` (with a valid `type` this yields the 400 invalid-body
response; an unhashable `type` raises `TypeError` first). -/
theorem c1_amended_effective_ttl :
    (∀ items, validate_post_puts items = Except.ok true →
      ∀ item ∈ items, ∃ fields s t cv, item = JVal.jobj fields ∧
        lookupField fields ttlKey = some s ∧ pyInt s = Except.ok t ∧
        0 < t ∧ t ≤ 3600 ∧ postStep item = Except.ok (t, cv)) ∧
    validate_post_ttlseconds (JVal.jnum 0) = Except.ok false ∧
    (∀ fields rest, lookupField fields ttlKey = none →
      validate_post_puts (JVal.jobj fields :: rest) ≠ Except.ok true) := by
  refine ⟨fun items h => validItems_postStep items h, rfl, ?_⟩
  intro fields rest h hcon
  simp only [validate_post_puts] at hcon
  split_ifs at hcon with h1
  · simp at hcon
  · cases hB : isAllowedType (lookupD fields typeKey JVal.jnull) with
    | error ex => rw [hB] at hcon; simp at hcon
    | ok bb =>
      rw [hB] at hcon
      cases bb with
      | false => simp at hcon
      | true =>
        rw [show lookupD fields ttlKey (JVal.jnum 0) = JVal.jnum 0 from by
          simp [lookupD, h]] at hcon
        rw [show validate_post_ttlseconds (JVal.jnum 0) = Except.ok false from rfl] at hcon
        simp at hcon

theorem c1_amended_effective_ttl_witness :
    (∃ fields s t cv, postItemJson (JVal.jnum 3) 120 = JVal.jobj fields ∧
      lookupField fields ttlKey = some s ∧ pyInt s = Except.ok t ∧
      0 < t ∧ t ≤ 3600 ∧ postStep (postItemJson (JVal.jnum 3) 120) = Except.ok (t, cv)) ∧
    validate_post_puts [JVal.jobj [(typeKey, JVal.jstr jsonChars),
      (valueKey, JVal.jnum 1)]] ≠ Except.ok true :=
  ⟨c1_amended_effective_ttl.1 [postItemJson (JVal.jnum 3) 120] rfl _
     (List.mem_cons_self _ _),
   c1_amended_effective_ttl.2.2 [(typeKey, JVal.jstr jsonChars), (valueKey, JVal.jnum 1)]
     [] rfl⟩
